import Mathlib

set_option maxRecDepth 100000
set_option synthInstance.maxSize 1024

/-
  Verification development for the simple-chama contribution engine.

  The definitions below are a shallow embedding of the balance / ledger /
  allocation logic in src/controllers/contributionController.js.  Database
  tables become lists inside a `DB` record, SQL statements become list
  operations, and JavaScript number arithmetic is modelled over `Rat`.
  Each definition mirrors one function (or one statement block) of the
  source file; the line numbers in the doc comments refer to
  src/controllers/contributionController.js.
-/

namespace Chama

/-- Status values of a `contributions` row.  The source stores them as the
strings "pending" / "partial" / "paid" / "late" / "waived" / "cancelled";
`partpaid` stands for the string "partial". -/
inductive CStatus where
  | pending
  | partpaid
  | paid
  | late
  | waived
  | cancelled
deriving DecidableEq

/-- Status values of a `contribution_cycles` row. -/
inductive CycleStatus where
  | upcoming
  | active
  | completed
  | cancelled
deriving DecidableEq

/-- A row of the `members` table (the columns the engine touches). -/
structure Member where
  id : Nat
  chamaId : Nat
  contribution_balance : ℚ
deriving DecidableEq

/-- A row of the `contribution_cycles` table. -/
structure Cycle where
  id : Nat
  chamaId : Nat
  cycleNumber : Nat
  status : CycleStatus
  collectedAmount : ℚ
deriving DecidableEq

/-- A row of the `cycle_types` join table: `amount` is the expected amount
of that contribution type inside that cycle. -/
structure CycleType where
  cycleId : Nat
  typeId : Nat
  amount : ℚ
deriving DecidableEq

/-- A row of the `contributions` table.  `typeId = none` models a NULL
`type_id` (used by rollover rows). -/
structure Contribution where
  id : Nat
  memberId : Nat
  cycleId : Nat
  typeId : Option Nat
  amount : ℚ
  expectedAmount : ℚ
  status : CStatus
  paymentMethod : String
deriving DecidableEq

/-- A row of the `contribution_ledger` table. -/
structure LedgerEntry where
  memberId : Nat
  cycleId : Option Nat
  contributionId : Option Nat
  transactionType : String
  amount : ℚ
  balanceBefore : ℚ
  balanceAfter : ℚ
  description : String
  createdBy : Nat
deriving DecidableEq

/-- A row of the `transactions` table (the chama-level activity log). -/
structure Txn where
  chamaId : Nat
  transactionType : String
  amount : ℚ
  createdBy : Nat
deriving DecidableEq

/-- The database state seen by the contribution controller.
`nextContributionId` models the AUTO_INCREMENT counter of `contributions`. -/
structure DB where
  members : List Member
  cycles : List Cycle
  cycleTypes : List CycleType
  contributions : List Contribution
  ledger : List LedgerEntry
  transactions : List Txn
  nextContributionId : Nat
deriving DecidableEq

/-- `SELECT * FROM members WHERE id = ?` (first row). -/
def findMember (db : DB) (memberId : Nat) : Option Member :=
  db.members.find? (fun m => m.id == memberId)

/-- `balanceRows[0]?.contribution_balance || 0` (lines 18-23). -/
def balanceOf (db : DB) (memberId : Nat) : ℚ :=
  ((findMember db memberId).map Member.contribution_balance).getD 0

/-- `UPDATE members SET contribution_balance = ? WHERE id = ?` (line 27). -/
def setBalance (db : DB) (memberId : Nat) (b : ℚ) : DB :=
  let ms := db.members.map
    (fun m => if m.id == memberId then { m with contribution_balance := b } else m)
  { db with members := ms }

/-- Failure injected into one execution of `updateMemberBalance`
(lines 11-62): `ok` means every statement succeeds, `ledgerFail` means the
ledger INSERT throws (it is caught at lines 50-52 and the transaction still
commits), `hardFail` means one of the earlier statements throws (the catch
at lines 56-58 rolls the transaction back and rethrows). -/
inductive UmbFail where
  | ok
  | ledgerFail
  | hardFail
deriving DecidableEq

/-- `updateMemberBalance` (lines 11-62) with an explicit failure mode.
Returns the post-transaction database and `some newBalance` on commit, or
the unchanged database and `none` when the transaction is rolled back. -/
def updateMemberBalanceF (db : DB) (memberId : Nat) (amount : ℚ)
    (description : String) (userId : Nat)
    (cycleId : Option Nat) (contributionId : Option Nat)
    (fail : UmbFail) : DB × Option ℚ :=
  match fail with
  | .hardFail => (db, none)
  | f =>
    let currentBalance := balanceOf db memberId
    let newBalance := currentBalance + amount
    let db1 := setBalance db memberId newBalance
    let db2 :=
      if f = UmbFail.ledgerFail then db1
      else { db1 with ledger := db1.ledger ++
        [{ memberId := memberId
           cycleId := cycleId
           contributionId := contributionId
           transactionType := "contribution"
           amount := amount
           balanceBefore := currentBalance
           balanceAfter := newBalance
           description := description
           createdBy := userId }] }
    (db2, some newBalance)

/-- `updateMemberBalance` in its nominal (no storage failure) execution;
this is the form every caller in the controller goes through. -/
def updateMemberBalance (db : DB) (memberId : Nat) (amount : ℚ)
    (description : String) (userId : Nat)
    (cycleId : Option Nat) (contributionId : Option Nat) : DB × ℚ :=
  let r := updateMemberBalanceF db memberId amount description userId
    cycleId contributionId UmbFail.ok
  (r.1, r.2.getD 0)

/-- Status of a freshly created contribution row (lines 77-84): default
"partial", "paid" when within the 0.01 tolerance of the expected amount,
"pending" when the amount is not positive. -/
def deriveStatusNew (amount expectedAmount : ℚ) : CStatus :=
  if |amount - expectedAmount| < 1/100 then CStatus.paid
  else if amount ≤ 0 then CStatus.pending
  else CStatus.partpaid

/-- Status recomputed on accumulation into an existing row (lines 90-91):
`paid` if |newAmount − expected| < 0.01, else `partial` if newAmount > 0,
else `pending`. -/
def deriveStatusUpd (newAmount expectedAmount : ℚ) : CStatus :=
  if |newAmount - expectedAmount| < 1/100 then CStatus.paid
  else if 0 < newAmount then CStatus.partpaid
  else CStatus.pending

/-- `SELECT * FROM contributions WHERE member_id = ? AND cycle_id = ? AND
type_id = ?` (lines 1141-1145 and 1187-1191). -/
def contribsFor (db : DB) (memberId cycleId typeId : Nat) : List Contribution :=
  db.contributions.filter
    (fun c => c.memberId == memberId && c.cycleId == cycleId && c.typeId == some typeId)

/-- `handleTypeContribution` (lines 67-142): updates the first existing row
for the triple by adding `amount` and recomputing the status, or inserts a
new row.  Returns the new database and the summary object the source
returns (note the source returns the delta `amount` and the status derived
from the delta, lines 127-135, not the accumulated row). -/
def handleTypeContribution (db : DB) (memberId cycleId typeId : Nat)
    (amount expectedAmount : ℚ) (paymentMethod : String)
    (existingContributions : List Contribution) : DB × Contribution :=
  match existingContributions with
  | existing :: _ =>
    let newAmount := existing.amount + amount
    let newStatus := deriveStatusUpd newAmount expectedAmount
    let cs := db.contributions.map
      (fun c => if c.id == existing.id then { c with amount := newAmount, status := newStatus } else c)
    ({ db with contributions := cs },
     { id := existing.id
       memberId := memberId
       cycleId := cycleId
       typeId := some typeId
       amount := amount
       expectedAmount := expectedAmount
       status := deriveStatusNew amount expectedAmount
       paymentMethod := paymentMethod })
  | [] =>
    let c : Contribution :=
      { id := db.nextContributionId
        memberId := memberId
        cycleId := cycleId
        typeId := some typeId
        amount := amount
        expectedAmount := expectedAmount
        status := deriveStatusNew amount expectedAmount
        paymentMethod := paymentMethod }
    ({ db with contributions := db.contributions ++ [c]
               nextContributionId := db.nextContributionId + 1 }, c)

/-- `SELECT ... FROM cycle_types ... WHERE ct2.cycle_id = ?`
(lines 1112-1118): the expected composition of a cycle, in table order. -/
def cycleTypesOf (db : DB) (cycleId : Nat) : List CycleType :=
  db.cycleTypes.filter (fun t => t.cycleId == cycleId)

/-- `SELECT ... FROM contribution_cycles WHERE id = ?` (first row). -/
def findCycle (db : DB) (cycleId : Nat) : Option Cycle :=
  db.cycles.find? (fun c => c.id == cycleId)

/-- `ORDER BY cycle_number DESC LIMIT 1`: the element with the greatest
cycle number (earlier rows win ties, as the scan keeps the first maximum). -/
def pickMaxByNumber : List Cycle → Option Cycle
  | [] => none
  | c :: cs =>
    match pickMaxByNumber cs with
    | none => some c
    | some d => if c.cycleNumber < d.cycleNumber then some d else some c

/-- `ORDER BY cycle_number ASC LIMIT 1`: the element with the least cycle
number (earlier rows win ties). -/
def pickMinByNumber : List Cycle → Option Cycle
  | [] => none
  | c :: cs =>
    match pickMinByNumber cs with
    | none => some c
    | some d => if d.cycleNumber < c.cycleNumber then some d else some c

/-- `SELECT id FROM contribution_cycles WHERE chama_id = ? AND status =
'active' ORDER BY cycle_number DESC LIMIT 1` (lines 1077-1082). -/
def activeCycleId (db : DB) (chamaId : Nat) : Option Nat :=
  let actives := db.cycles.filter
    (fun c => decide (c.chamaId = chamaId ∧ c.status = CycleStatus.active))
  (pickMaxByNumber actives).map Cycle.id

/-- `SELECT id, cycle_number FROM contribution_cycles WHERE chama_id = ?
AND cycle_number > ? AND status IN ('upcoming', 'active') ORDER BY
cycle_number ASC LIMIT 1` (lines 1216-1221). -/
def nextCycleAfter (db : DB) (chamaId : Nat) (cycleNumber : Nat) : Option Cycle :=
  pickMinByNumber (db.cycles.filter (fun c => decide
    (c.chamaId = chamaId ∧ cycleNumber < c.cycleNumber ∧
      (c.status = CycleStatus.upcoming ∨ c.status = CycleStatus.active))))

/-- `UPDATE contribution_cycles SET collected_amount = collected_amount + ?
WHERE id = ?` (lines 1274-1279). -/
def addCollected (db : DB) (cycleId : Nat) (delta : ℚ) : DB :=
  let cs := db.cycles.map
    (fun c => if c.id == cycleId then { c with collectedAmount := c.collectedAmount + delta } else c)
  { db with cycles := cs }

/-- The request body of `POST /api/contributions` (lines 1043-1053) after
authentication, together with the acting user id. -/
structure RecordParams where
  chamaId : Nat
  memberId : Nat
  cycleId : Option Nat
  typeId : Option Nat
  amount : ℚ
  paymentMethod : String
  applyToBalance : Bool
  userId : Nat
deriving DecidableEq

/-- Output of one allocation stage: the database after the stage, the
remaining payment, the amount the stage allocated, and the contribution
summaries produced. -/
structure StepOut where
  db : DB
  remaining : ℚ
  allocated : ℚ
  contribs : List Contribution
deriving DecidableEq

/-- Step 1 of `recordContribution` (lines 1137-1162): apply the payment to
the explicitly targeted type, capped by that type's outstanding shortfall.
Engaged only when a `typeId` is given and `applyToBalance` is not set. -/
def stepOne (db : DB) (p : RecordParams) (cycleId : Nat)
    (cycleTypes : List CycleType) : StepOut :=
  match p.typeId, p.applyToBalance with
  | some tid, false =>
    let typeExpected := ((cycleTypes.find? (fun t => t.typeId == tid)).map CycleType.amount).getD 0
    let existing := contribsFor db p.memberId cycleId tid
    let alreadyPaid := (existing.map Contribution.amount).sum
    let remainingForType := max 0 (typeExpected - alreadyPaid)
    if 0 < p.amount ∧ 0 < remainingForType then
      let paymentForType := min p.amount remainingForType
      if 0 < paymentForType then
        let r := handleTypeContribution db p.memberId cycleId tid paymentForType
          typeExpected p.paymentMethod existing
        { db := r.1, remaining := p.amount - paymentForType
          allocated := paymentForType, contribs := [r.2] }
      else { db := db, remaining := p.amount, allocated := 0, contribs := [] }
    else { db := db, remaining := p.amount, allocated := 0, contribs := [] }
  | _, _ => { db := db, remaining := p.amount, allocated := 0, contribs := [] }

/-- Step 2 of `recordContribution` (lines 1164-1180): clear arrears when
`applyToBalance` is set and the balance read before step 1 was negative.
`allocated` is the `balanceToClear` amount. -/
def stepTwo (db : DB) (p : RecordParams) (cycleId : Nat)
    (currentBalance remaining : ℚ) : StepOut :=
  if p.applyToBalance ∧ currentBalance < 0 ∧ 0 < remaining then
    let balanceToClear := min remaining |currentBalance|
    if 0 < balanceToClear then
      let r := updateMemberBalance db p.memberId balanceToClear
        "Balance clearance" p.userId (some cycleId) none
      { db := r.1, remaining := remaining - balanceToClear
        allocated := balanceToClear, contribs := [] }
    else { db := db, remaining := remaining, allocated := 0, contribs := [] }
  else { db := db, remaining := remaining, allocated := 0, contribs := [] }

/-- The loop of step 3 of `recordContribution` (lines 1184-1210): walk the
cycle's types in table order, paying each type's outstanding shortfall
until the payment is exhausted. -/
def allocTypes (memberId cycleId : Nat) (paymentMethod : String) :
    DB → ℚ → List CycleType → StepOut
  | db, remaining, [] => { db := db, remaining := remaining, allocated := 0, contribs := [] }
  | db, remaining, t :: ts =>
    if remaining ≤ 0 then { db := db, remaining := remaining, allocated := 0, contribs := [] }
    else
      let existing := contribsFor db memberId cycleId t.typeId
      let alreadyPaid := (existing.map Contribution.amount).sum
      let remainingForType := max 0 (t.amount - alreadyPaid)
      if 0 < remainingForType then
        let paymentForType := min remaining remainingForType
        if 0 < paymentForType then
          let r := handleTypeContribution db memberId cycleId t.typeId paymentForType
            t.amount paymentMethod existing
          let rest := allocTypes memberId cycleId paymentMethod r.1 (remaining - paymentForType) ts
          { db := rest.db, remaining := rest.remaining
            allocated := paymentForType + rest.allocated
            contribs := r.2 :: rest.contribs }
        else allocTypes memberId cycleId paymentMethod db remaining ts
      else allocTypes memberId cycleId paymentMethod db remaining ts

/-- Output of step 4 (overflow handling). -/
structure OverflowOut where
  db : DB
  remaining : ℚ
  rolloverAmount : ℚ
  creditAmount : ℚ
  nextCycleId : Option Nat
deriving DecidableEq

/-- Step 4 of `recordContribution` (lines 1213-1269): a positive remainder
becomes a rollover contribution (type NULL, status paid) in the next
upcoming/active cycle plus a balance-increasing ledger entry, or — when no
such cycle exists — a plain positive balance credit.  Note the source
passes `currentCycleId` to `updateMemberBalance` on both branches
(lines 1245-1252 and 1258-1264). -/
def stepFour (db : DB) (p : RecordParams) (cyc : Cycle) (remaining : ℚ) : OverflowOut :=
  if 0 < remaining then
    match nextCycleAfter db p.chamaId cyc.cycleNumber with
    | some nextCycle =>
      let rolloverId := db.nextContributionId
      let rollover : Contribution :=
        { id := rolloverId
          memberId := p.memberId
          cycleId := nextCycle.id
          typeId := none
          amount := remaining
          expectedAmount := remaining
          status := CStatus.paid
          paymentMethod := "rollover" }
      let db1 := { db with contributions := db.contributions ++ [rollover]
                           nextContributionId := rolloverId + 1 }
      let r := updateMemberBalance db1 p.memberId remaining
        "Rollover to next cycle" p.userId (some cyc.id) (some rolloverId)
      { db := r.1, remaining := 0, rolloverAmount := remaining
        creditAmount := 0, nextCycleId := some nextCycle.id }
    | none =>
      let r := updateMemberBalance db p.memberId remaining
        "Overpayment" p.userId (some cyc.id) none
      { db := r.1, remaining := 0, rolloverAmount := 0
        creditAmount := remaining, nextCycleId := none }
  else
    { db := db, remaining := remaining, rolloverAmount := 0
      creditAmount := 0, nextCycleId := none }

/-- The observable outcome of one `recordContribution` call: the final
database together with the allocation breakdown of the payment
(the source's `contributions`, `balanceAdjustment`, `rolloverAmount`,
`remainingPayment` locals, with the balance adjustment split into its
step 2 clearance part and its step 4 credit part). -/
structure AllocResult where
  db : DB
  currentCycleId : Nat
  step1Amount : ℚ
  clearedAmount : ℚ
  step3Amount : ℚ
  rolloverAmount : ℚ
  creditAmount : ℚ
  remaining : ℚ
  typeContribs : List Contribution
  nextCycleId : Option Nat
deriving DecidableEq

/-- The mutating body of `recordContribution` (lines 1111-1349) once the
current cycle has been resolved: steps 1-4 in order, then the cycle's
collected-amount update (lines 1271-1280) and the `transactions` INSERT
(lines 1283-1293). -/
def recordPipeline (db : DB) (p : RecordParams) (currentCycleId : Nat) (cyc : Cycle) : AllocResult :=
  let cycleTypes := cycleTypesOf db currentCycleId
  let currentBalance := balanceOf db p.memberId
  let s1 := stepOne db p currentCycleId cycleTypes
  let s2 := stepTwo s1.db p currentCycleId currentBalance s1.remaining
  let s3 :=
    if 0 < s2.remaining ∧ ¬p.applyToBalance then
      allocTypes p.memberId currentCycleId p.paymentMethod s2.db s2.remaining cycleTypes
    else { db := s2.db, remaining := s2.remaining, allocated := 0, contribs := [] }
  let s4 := stepFour s3.db p cyc s3.remaining
  let totalPaid := p.amount - s4.remaining
  let db5 := if 0 < totalPaid then addCollected s4.db currentCycleId totalPaid else s4.db
  let db6 := { db5 with transactions := db5.transactions ++
    [{ chamaId := p.chamaId
       transactionType := "contribution"
       amount := totalPaid
       createdBy := p.userId }] }
  { db := db6
    currentCycleId := currentCycleId
    step1Amount := s1.allocated
    clearedAmount := s2.allocated
    step3Amount := s3.allocated
    rolloverAmount := s4.rolloverAmount
    creditAmount := s4.creditAmount
    remaining := s4.remaining
    typeContribs := s1.contribs ++ s3.contribs
    nextCycleId := s4.nextCycleId }

/-- `recordContribution` (lines 1042-1349), from the point where the
request passes validation and authorization.  `none` models the early
error responses: a falsy amount (line 1057), no active cycle (line 1084),
or an unknown cycle id (line 1102). -/
def recordContribution (db : DB) (p : RecordParams) : Option AllocResult :=
  if p.amount = 0 then none
  else
    let cycleIdFound :=
      match p.cycleId with
      | some cid => some cid
      | none => activeCycleId db p.chamaId
    match cycleIdFound with
    | none => none
    | some currentCycleId =>
      match findCycle db currentCycleId with
      | none => none
      | some cyc => some (recordPipeline db p currentCycleId cyc)

/-- `UPDATE contribution_cycles SET status = 'completed' WHERE chama_id = ?
AND status = 'active'` (lines 611-616 and 918-923). -/
def demoteActiveCycles (db : DB) (chamaId : Nat) : DB :=
  let cs := db.cycles.map
    (fun c => if c.chamaId = chamaId ∧ c.status = CycleStatus.active
              then { c with status := CycleStatus.completed } else c)
  { db with cycles := cs }

/-- `updateCycleStatus` (lines 884-950): look up the cycle, demote every
active cycle of its chama when the new status is active, then set the
target cycle's status.  `db` unchanged models the 404 early return. -/
def updateCycleStatus (db : DB) (cycleId : Nat) (newStatus : CycleStatus) : DB :=
  match findCycle db cycleId with
  | none => db
  | some cyc =>
    let db1 := if newStatus = CycleStatus.active then demoteActiveCycles db cyc.chamaId else db
    let cs := db1.cycles.map
      (fun c => if c.id = cycleId then { c with status := newStatus } else c)
    { db1 with cycles := cs }

/-- `createOrUpdateCycle` (lines 560-676), restricted to the cycle-row
effects the claims are about.  With a `cycleId` the source only runs
`UPDATE contribution_cycles SET ... status = ? WHERE id = ? AND chama_id
= ?` (lines 591-596) — it never demotes other active cycles.  Without one
it computes the next cycle number (lines 600-607), demotes active cycles
when the new status is active (lines 610-617), and inserts the new row
(lines 619-632) with id `newCycleId`. -/
def createOrUpdateCycle (db : DB) (chamaId : Nat) (status : CycleStatus)
    (cycleIdOpt : Option Nat) (newCycleId : Nat) : DB :=
  match cycleIdOpt with
  | some cid =>
    let cs := db.cycles.map
      (fun c => if c.id = cid ∧ c.chamaId = chamaId then { c with status := status } else c)
    { db with cycles := cs }
  | none =>
    let lastNumber := ((db.cycles.filter (fun c => c.chamaId == chamaId)).map Cycle.cycleNumber).foldl max 0
    let db1 := if status = CycleStatus.active then demoteActiveCycles db chamaId else db
    { db1 with cycles := db1.cycles ++
      [{ id := newCycleId
         chamaId := chamaId
         cycleNumber := lastNumber + 1
         status := status
         collectedAmount := 0 }] }

/-- `SELECT * FROM contribution_cycles WHERE chama_id = ? AND status =
'active'`: the query the single-active-cycle property is stated over. -/
def activeCyclesOf (db : DB) (chamaId : Nat) : List Cycle :=
  db.cycles.filter (fun c => decide (c.chamaId = chamaId ∧ c.status = CycleStatus.active))

/-- `SELECT * FROM contributions WHERE id = ?` (first row). -/
def findContribution (db : DB) (contributionId : Nat) : Option Contribution :=
  db.contributions.find? (fun c => c.id == contributionId)

/-- `adjustMemberBalance` (lines 2553-2617): a direct admin balance
adjustment through `updateMemberBalance`, plus an `adjustment` row in the
`transactions` table.  `db` unchanged models the early error responses. -/
def adjustMemberBalanceOp (db : DB) (memberId : Nat) (amount : ℚ) (userId : Nat) : DB :=
  match findMember db memberId with
  | none => db
  | some m =>
    let r := updateMemberBalance db memberId amount "Balance adjustment" userId none none
    { r.1 with transactions := r.1.transactions ++
      [{ chamaId := m.chamaId
         transactionType := "adjustment"
         amount := amount
         createdBy := userId }] }

/-- `UPDATE contribution_cycles cc SET collected_amount = (SELECT
COALESCE(SUM(amount), 0) FROM contributions WHERE cycle_id = cc.id AND
status = 'paid') WHERE cc.id = ?` (lines 1466-1475). -/
def recomputeCollected (db : DB) (cycleId : Nat) : DB :=
  let total := ((db.contributions.filter
    (fun k => decide (k.cycleId = cycleId ∧ k.status = CStatus.paid))).map Contribution.amount).sum
  let cs := db.cycles.map
    (fun c => if c.id == cycleId then { c with collectedAmount := total } else c)
  { db with cycles := cs }

/-- `updateContribution` (lines 1365-1512), restricted to the financially
relevant fields (amount and status).  When the amount changes the member
balance is first adjusted by the difference through `updateMemberBalance`
(lines 1402-1419); then the row is updated (lines 1421-1462) and, when the
amount was given, the cycle's collected amount is recomputed from the
post-update rows (lines 1464-1476). -/
def updateContributionOp (db : DB) (contributionId : Nat)
    (amountOpt : Option ℚ) (statusOpt : Option CStatus) (userId : Nat) : DB :=
  match findContribution db contributionId with
  | none => db
  | some c =>
    match findMember db c.memberId with
    | none => db
    | some _ =>
      let oldAmount := c.amount
      let newAmount := amountOpt.getD oldAmount
      let db1 :=
        if amountOpt.isSome ∧ oldAmount ≠ newAmount then
          (updateMemberBalance db c.memberId (newAmount - oldAmount)
            "Contribution adjustment" userId (some c.cycleId) (some contributionId)).1
        else db
      if amountOpt.isNone ∧ statusOpt.isNone then db1
      else
        let cs := db1.contributions.map (fun k =>
          if k.id == contributionId then
            { k with amount := if amountOpt.isSome then newAmount else k.amount
                     status := statusOpt.getD k.status }
          else k)
        let db2 := { db1 with contributions := cs }
        if amountOpt.isSome then recomputeCollected db2 c.cycleId else db2

/-- `deleteContribution` (lines 1519-1600): reverse the contribution on the
member balance through `updateMemberBalance` (lines 1555-1564), clamp the
cycle's collected amount at zero when the row was paid (lines 1566-1574),
then delete the row (line 1577). -/
def deleteContributionOp (db : DB) (contributionId : Nat) (userId : Nat) : DB :=
  match findContribution db contributionId with
  | none => db
  | some c =>
    match findMember db c.memberId with
    | none => db
    | some _ =>
      let db1 := (updateMemberBalance db c.memberId (-c.amount)
        "Contribution deleted" userId (some c.cycleId) (some contributionId)).1
      let db2 :=
        if c.status = CStatus.paid then
          let cs := db1.cycles.map (fun cy =>
            if cy.id == c.cycleId
            then { cy with collectedAmount := max 0 (cy.collectedAmount - c.amount) } else cy)
          { db1 with cycles := cs }
        else db1
      { db2 with contributions := db2.contributions.filter (fun k => !(k.id == contributionId)) }

/-- The balance-touching operations of the controller, as named by the
conservation claim: payment recording, direct balance adjustment,
contribution update and contribution deletion. -/
inductive Op where
  | record (p : RecordParams)
  | adjust (memberId : Nat) (amount : ℚ) (userId : Nat)
  | updateContribution (contributionId : Nat) (amountOpt : Option ℚ)
      (statusOpt : Option CStatus) (userId : Nat)
  | deleteContribution (contributionId : Nat) (userId : Nat)

/-- Run one operation against the database (a failed `recordContribution`
leaves the database unchanged, as every early return precedes the first
mutating statement). -/
def applyOp (db : DB) : Op → DB
  | Op.record p =>
    match recordContribution db p with
    | none => db
    | some r => r.db
  | Op.adjust memberId amount userId => adjustMemberBalanceOp db memberId amount userId
  | Op.updateContribution contributionId amountOpt statusOpt userId =>
    updateContributionOp db contributionId amountOpt statusOpt userId
  | Op.deleteContribution contributionId userId =>
    deleteContributionOp db contributionId userId

/-- Run a sequence of operations. -/
def applyOps (db : DB) (ops : List Op) : DB :=
  ops.foldl applyOp db

/-- Sum of the signed amounts of the ledger entries of one member. -/
def ledgerSum (ledger : List LedgerEntry) (memberId : Nat) : ℚ :=
  ((ledger.filter (fun e => e.memberId == memberId)).map LedgerEntry.amount).sum

/-- The conservation invariant: member ids are unique (primary key) and
every member's stored balance equals the sum of the signed amounts of that
member's ledger entries. -/
def LedgerInv (db : DB) : Prop :=
  (db.members.map Member.id).Nodup ∧
    ∀ m ∈ db.members, m.contribution_balance = ledgerSum db.ledger m.id

/-! ### Frame lemmas: which tables each primitive leaves untouched -/

@[simp] theorem handleTypeContribution_members (db : DB) (m cy t : Nat) (a e : ℚ)
    (pm : String) (ex : List Contribution) :
    (handleTypeContribution db m cy t a e pm ex).1.members = db.members := by
  cases ex <;> rfl

@[simp] theorem handleTypeContribution_ledger (db : DB) (m cy t : Nat) (a e : ℚ)
    (pm : String) (ex : List Contribution) :
    (handleTypeContribution db m cy t a e pm ex).1.ledger = db.ledger := by
  cases ex <;> rfl

@[simp] theorem handleTypeContribution_cycles (db : DB) (m cy t : Nat) (a e : ℚ)
    (pm : String) (ex : List Contribution) :
    (handleTypeContribution db m cy t a e pm ex).1.cycles = db.cycles := by
  cases ex <;> rfl

@[simp] theorem handleTypeContribution_cycleTypes (db : DB) (m cy t : Nat) (a e : ℚ)
    (pm : String) (ex : List Contribution) :
    (handleTypeContribution db m cy t a e pm ex).1.cycleTypes = db.cycleTypes := by
  cases ex <;> rfl

@[simp] theorem handleTypeContribution_transactions (db : DB) (m cy t : Nat) (a e : ℚ)
    (pm : String) (ex : List Contribution) :
    (handleTypeContribution db m cy t a e pm ex).1.transactions = db.transactions := by
  cases ex <;> rfl

@[simp] theorem updateMemberBalance_contributions (db : DB) (mid : Nat) (a : ℚ)
    (d : String) (u : Nat) (ci co : Option Nat) :
    (updateMemberBalance db mid a d u ci co).1.contributions = db.contributions := rfl

@[simp] theorem updateMemberBalance_cycles (db : DB) (mid : Nat) (a : ℚ)
    (d : String) (u : Nat) (ci co : Option Nat) :
    (updateMemberBalance db mid a d u ci co).1.cycles = db.cycles := rfl

@[simp] theorem updateMemberBalance_cycleTypes (db : DB) (mid : Nat) (a : ℚ)
    (d : String) (u : Nat) (ci co : Option Nat) :
    (updateMemberBalance db mid a d u ci co).1.cycleTypes = db.cycleTypes := rfl

@[simp] theorem updateMemberBalance_transactions (db : DB) (mid : Nat) (a : ℚ)
    (d : String) (u : Nat) (ci co : Option Nat) :
    (updateMemberBalance db mid a d u ci co).1.transactions = db.transactions := rfl

@[simp] theorem updateMemberBalance_nextId (db : DB) (mid : Nat) (a : ℚ)
    (d : String) (u : Nat) (ci co : Option Nat) :
    (updateMemberBalance db mid a d u ci co).1.nextContributionId = db.nextContributionId := rfl

@[simp] theorem stepOne_members (db : DB) (p : RecordParams) (cid : Nat)
    (cts : List CycleType) : (stepOne db p cid cts).db.members = db.members := by
  unfold stepOne
  rcases p.typeId with _ | tid <;> rcases hb : p.applyToBalance <;> simp <;> split_ifs <;> simp

@[simp] theorem stepOne_ledger (db : DB) (p : RecordParams) (cid : Nat)
    (cts : List CycleType) : (stepOne db p cid cts).db.ledger = db.ledger := by
  unfold stepOne
  rcases p.typeId with _ | tid <;> rcases hb : p.applyToBalance <;> simp <;> split_ifs <;> simp

@[simp] theorem stepOne_cycles (db : DB) (p : RecordParams) (cid : Nat)
    (cts : List CycleType) : (stepOne db p cid cts).db.cycles = db.cycles := by
  unfold stepOne
  rcases p.typeId with _ | tid <;> rcases hb : p.applyToBalance <;> simp <;> split_ifs <;> simp

@[simp] theorem stepOne_cycleTypes (db : DB) (p : RecordParams) (cid : Nat)
    (cts : List CycleType) : (stepOne db p cid cts).db.cycleTypes = db.cycleTypes := by
  unfold stepOne
  rcases p.typeId with _ | tid <;> rcases hb : p.applyToBalance <;> simp <;> split_ifs <;> simp

@[simp] theorem stepOne_transactions (db : DB) (p : RecordParams) (cid : Nat)
    (cts : List CycleType) : (stepOne db p cid cts).db.transactions = db.transactions := by
  unfold stepOne
  rcases p.typeId with _ | tid <;> rcases hb : p.applyToBalance <;> simp <;> split_ifs <;> simp

@[simp] theorem stepTwo_contributions (db : DB) (p : RecordParams) (cid : Nat)
    (bal rem : ℚ) : (stepTwo db p cid bal rem).db.contributions = db.contributions := by
  simp only [stepTwo]; split_ifs <;> rfl

@[simp] theorem stepTwo_cycles (db : DB) (p : RecordParams) (cid : Nat)
    (bal rem : ℚ) : (stepTwo db p cid bal rem).db.cycles = db.cycles := by
  simp only [stepTwo]; split_ifs <;> rfl

@[simp] theorem stepTwo_cycleTypes (db : DB) (p : RecordParams) (cid : Nat)
    (bal rem : ℚ) : (stepTwo db p cid bal rem).db.cycleTypes = db.cycleTypes := by
  simp only [stepTwo]; split_ifs <;> rfl

@[simp] theorem stepTwo_transactions (db : DB) (p : RecordParams) (cid : Nat)
    (bal rem : ℚ) : (stepTwo db p cid bal rem).db.transactions = db.transactions := by
  simp only [stepTwo]; split_ifs <;> rfl

theorem allocTypes_members (m cy : Nat) (pm : String) (db : DB) (rem : ℚ)
    (ts : List CycleType) : (allocTypes m cy pm db rem ts).db.members = db.members := by
  induction ts generalizing db rem with
  | nil => rfl
  | cons t ts ih => simp only [allocTypes]; split_ifs <;> simp [ih]

theorem allocTypes_ledger (m cy : Nat) (pm : String) (db : DB) (rem : ℚ)
    (ts : List CycleType) : (allocTypes m cy pm db rem ts).db.ledger = db.ledger := by
  induction ts generalizing db rem with
  | nil => rfl
  | cons t ts ih => simp only [allocTypes]; split_ifs <;> simp [ih]

theorem allocTypes_cycles (m cy : Nat) (pm : String) (db : DB) (rem : ℚ)
    (ts : List CycleType) : (allocTypes m cy pm db rem ts).db.cycles = db.cycles := by
  induction ts generalizing db rem with
  | nil => rfl
  | cons t ts ih => simp only [allocTypes]; split_ifs <;> simp [ih]

theorem allocTypes_cycleTypes (m cy : Nat) (pm : String) (db : DB) (rem : ℚ)
    (ts : List CycleType) : (allocTypes m cy pm db rem ts).db.cycleTypes = db.cycleTypes := by
  induction ts generalizing db rem with
  | nil => rfl
  | cons t ts ih => simp only [allocTypes]; split_ifs <;> simp [ih]

theorem allocTypes_transactions (m cy : Nat) (pm : String) (db : DB) (rem : ℚ)
    (ts : List CycleType) : (allocTypes m cy pm db rem ts).db.transactions = db.transactions := by
  induction ts generalizing db rem with
  | nil => rfl
  | cons t ts ih => simp only [allocTypes]; split_ifs <;> simp [ih]

@[simp] theorem stepFour_cycles (db : DB) (p : RecordParams) (cyc : Cycle) (rem : ℚ) :
    (stepFour db p cyc rem).db.cycles = db.cycles := by
  simp only [stepFour]
  split_ifs with h
  · cases hnc : nextCycleAfter db p.chamaId cyc.cycleNumber <;> simp
  · rfl

@[simp] theorem stepFour_cycleTypes (db : DB) (p : RecordParams) (cyc : Cycle) (rem : ℚ) :
    (stepFour db p cyc rem).db.cycleTypes = db.cycleTypes := by
  simp only [stepFour]
  split_ifs with h
  · cases hnc : nextCycleAfter db p.chamaId cyc.cycleNumber <;> simp
  · rfl

@[simp] theorem stepFour_transactions (db : DB) (p : RecordParams) (cyc : Cycle) (rem : ℚ) :
    (stepFour db p cyc rem).db.transactions = db.transactions := by
  simp only [stepFour]
  split_ifs with h
  · cases hnc : nextCycleAfter db p.chamaId cyc.cycleNumber <;> simp
  · rfl

@[simp] theorem addCollected_members (db : DB) (cid : Nat) (d : ℚ) :
    (addCollected db cid d).members = db.members := rfl

@[simp] theorem addCollected_ledger (db : DB) (cid : Nat) (d : ℚ) :
    (addCollected db cid d).ledger = db.ledger := rfl

@[simp] theorem addCollected_contributions (db : DB) (cid : Nat) (d : ℚ) :
    (addCollected db cid d).contributions = db.contributions := rfl

@[simp] theorem addCollected_transactions (db : DB) (cid : Nat) (d : ℚ) :
    (addCollected db cid d).transactions = db.transactions := rfl

/-! ### Accounting lemmas: each stage allocates exactly what it removes
from the remaining payment, and never drives the remainder negative -/

theorem stepOne_acc (db : DB) (p : RecordParams) (cid : Nat) (cts : List CycleType) :
    (stepOne db p cid cts).remaining + (stepOne db p cid cts).allocated = p.amount ∧
    (0 ≤ p.amount → 0 ≤ (stepOne db p cid cts).remaining) := by
  simp only [stepOne]
  rcases p.typeId with _ | tid
  · simp
  · rcases hb : p.applyToBalance
    · simp only
      split_ifs with h1 h2
      · refine ⟨by ring, fun _ => ?_⟩
        have := min_le_left p.amount (max 0
          ((((cts.find? fun t => t.typeId == tid)).map CycleType.amount).getD 0 -
            ((contribsFor db p.memberId cid tid).map Contribution.amount).sum))
        simp only
        linarith
      · simp
      · simp
    · simp

theorem stepTwo_acc (db : DB) (p : RecordParams) (cid : Nat) (bal rem : ℚ) :
    (stepTwo db p cid bal rem).remaining + (stepTwo db p cid bal rem).allocated = rem ∧
    (0 ≤ rem → 0 ≤ (stepTwo db p cid bal rem).remaining) := by
  simp only [stepTwo]
  split_ifs with h1 h2
  · refine ⟨by ring, fun _ => ?_⟩
    have := min_le_left rem |bal|
    simp only
    linarith
  · simp
  · simp

theorem allocTypes_acc (m cy : Nat) (pm : String) (db : DB) (rem : ℚ)
    (ts : List CycleType) :
    (allocTypes m cy pm db rem ts).remaining + (allocTypes m cy pm db rem ts).allocated = rem ∧
    (0 ≤ rem → 0 ≤ (allocTypes m cy pm db rem ts).remaining) := by
  induction ts generalizing db rem with
  | nil => simp [allocTypes]
  | cons t ts ih =>
    simp only [allocTypes]
    split_ifs with h1 h2 h3
    · simp
    · have hmin : min rem (max 0 (t.amount -
        ((contribsFor db m cy t.typeId).map Contribution.amount).sum)) ≤ rem := min_le_left _ _
      obtain ⟨iha, ihb⟩ := ih
        (handleTypeContribution db m cy t.typeId
          (min rem (max 0 (t.amount - ((contribsFor db m cy t.typeId).map Contribution.amount).sum)))
          t.amount pm (contribsFor db m cy t.typeId)).1
        (rem - min rem (max 0 (t.amount - ((contribsFor db m cy t.typeId).map Contribution.amount).sum)))
      refine ⟨?_, fun _ => ihb (by linarith)⟩
      simp only
      linarith
    · exact ih db rem
    · exact ih db rem

theorem stepFour_acc (db : DB) (p : RecordParams) (cyc : Cycle) (rem : ℚ) :
    ((stepFour db p cyc rem).rolloverAmount + (stepFour db p cyc rem).creditAmount =
      rem - (stepFour db p cyc rem).remaining) ∧
    (stepFour db p cyc rem).remaining = (if 0 < rem then 0 else rem) := by
  simp only [stepFour]
  split_ifs with h
  · cases hnc : nextCycleAfter db p.chamaId cyc.cycleNumber <;> simp
  · simp

/-! ### Conservation machinery -/

theorem ledgerSum_append (l₁ l₂ : List LedgerEntry) (mid : Nat) :
    ledgerSum (l₁ ++ l₂) mid = ledgerSum l₁ mid + ledgerSum l₂ mid := by
  simp [ledgerSum, List.filter_append]

theorem ledgerSum_single (e : LedgerEntry) (mid : Nat) :
    ledgerSum [e] mid = if e.memberId = mid then e.amount else 0 := by
  by_cases h : e.memberId = mid <;> simp [ledgerSum, h]

theorem find?_id_of_mem (m : Member) : ∀ (l : List Member), m ∈ l →
    (l.map Member.id).Nodup → l.find? (fun x => x.id == m.id) = some m := by
  intro l
  induction l with
  | nil => intro h; cases h
  | cons c t ih =>
    intro hm hn
    rw [List.map_cons, List.nodup_cons] at hn
    rcases List.mem_cons.mp hm with rfl | hmt
    · simp [List.find?]
    · have hne : (c.id == m.id) = false := by
        refine beq_eq_false_iff_ne.mpr fun hceq => hn.1 ?_
        rw [hceq]
        exact List.mem_map_of_mem Member.id hmt
      rw [List.find?, hne]
      exact ih hmt hn.2

theorem balanceOf_eq (db : DB) (m : Member) (hm : m ∈ db.members)
    (hn : (db.members.map Member.id).Nodup) : balanceOf db m.id = m.contribution_balance := by
  unfold balanceOf findMember
  rw [find?_id_of_mem m db.members hm hn]
  rfl

theorem ledgerInv_of_frame (db db' : DB) (h : LedgerInv db)
    (hm : db'.members = db.members) (hl : db'.ledger = db.ledger) : LedgerInv db' := by
  unfold LedgerInv at h ⊢
  rw [hm, hl]
  exact h

theorem updateMemberBalance_inv (db : DB) (mid : Nat) (a : ℚ) (d : String) (u : Nat)
    (ci co : Option Nat) (h : LedgerInv db) :
    LedgerInv (updateMemberBalance db mid a d u ci co).1 := by
  obtain ⟨hn, hb⟩ := h
  have hDm : (updateMemberBalance db mid a d u ci co).1.members =
      db.members.map (fun m => if m.id == mid
        then { m with contribution_balance := balanceOf db mid + a } else m) := rfl
  have hDl : (updateMemberBalance db mid a d u ci co).1.ledger = db.ledger ++
      [{ memberId := mid, cycleId := ci, contributionId := co,
         transactionType := "contribution", amount := a,
         balanceBefore := balanceOf db mid, balanceAfter := balanceOf db mid + a,
         description := d, createdBy := u }] := rfl
  constructor
  · rw [hDm, List.map_map]
    have hcomp : (Member.id ∘ fun m => if m.id == mid
        then { m with contribution_balance := balanceOf db mid + a } else m) = Member.id := by
      funext m
      by_cases hm : m.id == mid <;> simp [Function.comp, hm]
    rw [hcomp]
    exact hn
  · intro m' hm'
    rw [hDm] at hm'
    obtain ⟨m, hm, rfl⟩ := List.mem_map.mp hm'
    rw [hDl, ledgerSum_append, ledgerSum_single]
    by_cases hid : m.id = mid
    · subst hid
      have hbal : balanceOf db m.id = m.contribution_balance := balanceOf_eq db m hm hn
      simp [hbal, hb m hm]
    · have hbeq : (m.id == mid) = false := beq_eq_false_iff_ne.mpr hid
      simp only [hbeq, if_neg, Bool.false_eq_true, if_false]
      rw [if_neg (fun he => hid he.symm)]
      simpa using hb m hm

theorem stepOne_inv (db : DB) (p : RecordParams) (cid : Nat) (cts : List CycleType)
    (h : LedgerInv db) : LedgerInv (stepOne db p cid cts).db :=
  ledgerInv_of_frame db _ h (stepOne_members db p cid cts) (stepOne_ledger db p cid cts)

theorem stepTwo_inv (db : DB) (p : RecordParams) (cid : Nat) (bal rem : ℚ)
    (h : LedgerInv db) : LedgerInv (stepTwo db p cid bal rem).db := by
  simp only [stepTwo]
  split_ifs
  · exact updateMemberBalance_inv db p.memberId _ _ p.userId _ none h
  · exact h
  · exact h

theorem allocTypes_inv (m cy : Nat) (pm : String) (db : DB) (rem : ℚ)
    (ts : List CycleType) (h : LedgerInv db) : LedgerInv (allocTypes m cy pm db rem ts).db :=
  ledgerInv_of_frame db _ h (allocTypes_members m cy pm db rem ts)
    (allocTypes_ledger m cy pm db rem ts)

theorem stepFour_inv (db : DB) (p : RecordParams) (cyc : Cycle) (rem : ℚ)
    (h : LedgerInv db) : LedgerInv (stepFour db p cyc rem).db := by
  simp only [stepFour]
  split_ifs
  · cases hnc : nextCycleAfter db p.chamaId cyc.cycleNumber with
    | none => exact updateMemberBalance_inv db p.memberId rem _ p.userId _ none h
    | some nc =>
      apply updateMemberBalance_inv
      exact ledgerInv_of_frame db _ h rfl rfl
  · exact h

theorem addCollected_inv (db : DB) (cid : Nat) (d : ℚ) (h : LedgerInv db) :
    LedgerInv (addCollected db cid d) :=
  ledgerInv_of_frame db _ h rfl rfl

theorem recordPipeline_inv (db : DB) (p : RecordParams) (cid : Nat) (cyc : Cycle)
    (h : LedgerInv db) : LedgerInv (recordPipeline db p cid cyc).db := by
  simp only [recordPipeline]
  set s1 := stepOne db p cid (cycleTypesOf db cid) with hs1
  set s2 := stepTwo s1.db p cid (balanceOf db p.memberId) s1.remaining with hs2
  set s3 := (if 0 < s2.remaining ∧ ¬p.applyToBalance = true then
      allocTypes p.memberId cid p.paymentMethod s2.db s2.remaining (cycleTypesOf db cid)
    else { db := s2.db, remaining := s2.remaining, allocated := 0, contribs := [] } : StepOut) with hs3
  set s4 := stepFour s3.db p cyc s3.remaining with hs4
  have inv2 : LedgerInv s2.db := by
    rw [hs2]
    exact stepTwo_inv _ _ _ _ _ (stepOne_inv _ _ _ _ h)
  have inv3 : LedgerInv s3.db := by
    rw [hs3]
    split_ifs
    · exact allocTypes_inv _ _ _ _ _ _ inv2
    · exact inv2
  have inv4 : LedgerInv s4.db := by
    rw [hs4]
    exact stepFour_inv _ _ _ _ inv3
  have inv5 : LedgerInv (if 0 < p.amount - s4.remaining then
      addCollected s4.db cid (p.amount - s4.remaining) else s4.db) := by
    split_ifs
    · exact addCollected_inv _ _ _ inv4
    · exact inv4
  exact ledgerInv_of_frame _ _ inv5 rfl rfl

theorem recordContribution_inv (db : DB) (p : RecordParams) (r : AllocResult)
    (hr : recordContribution db p = some r) (h : LedgerInv db) : LedgerInv r.db := by
  simp only [recordContribution] at hr
  split at hr
  · exact absurd hr (by simp)
  · split at hr
    · exact absurd hr (by simp)
    · next currentCycleId hcc =>
      split at hr
      · exact absurd hr (by simp)
      · next cyc hcyc =>
        obtain rfl := (Option.some.inj hr).symm
        exact recordPipeline_inv db p currentCycleId cyc h

theorem setContributions_inv (db : DB) (cs : List Contribution) (h : LedgerInv db) :
    LedgerInv { db with contributions := cs } :=
  ledgerInv_of_frame db _ h rfl rfl

theorem setCycles_inv (db : DB) (cs : List Cycle) (h : LedgerInv db) :
    LedgerInv { db with cycles := cs } :=
  ledgerInv_of_frame db _ h rfl rfl

theorem setTransactions_inv (db : DB) (ts : List Txn) (h : LedgerInv db) :
    LedgerInv { db with transactions := ts } :=
  ledgerInv_of_frame db _ h rfl rfl

theorem recomputeCollected_inv (db : DB) (cid : Nat) (h : LedgerInv db) :
    LedgerInv (recomputeCollected db cid) :=
  ledgerInv_of_frame db _ h rfl rfl

theorem adjustOp_inv (db : DB) (mid : Nat) (a : ℚ) (uid : Nat) (h : LedgerInv db) :
    LedgerInv (adjustMemberBalanceOp db mid a uid) := by
  simp only [adjustMemberBalanceOp]
  split
  · exact h
  · exact setTransactions_inv _ _ (updateMemberBalance_inv db mid a _ uid none none h)

theorem updateContributionOp_inv (db : DB) (cid : Nat) (ao : Option ℚ)
    (so : Option CStatus) (uid : Nat) (h : LedgerInv db) :
    LedgerInv (updateContributionOp db cid ao so uid) := by
  simp only [updateContributionOp]
  split
  · exact h
  · next c hfc =>
    split
    · exact h
    · next m hfm =>
      split_ifs <;>
        first
          | exact h
          | exact updateMemberBalance_inv db c.memberId _ _ uid _ _ h
          | exact setContributions_inv _ _ h
          | exact setContributions_inv _ _ (updateMemberBalance_inv db c.memberId _ _ uid _ _ h)
          | exact recomputeCollected_inv _ _ (setContributions_inv _ _ h)
          | exact recomputeCollected_inv _ _
              (setContributions_inv _ _ (updateMemberBalance_inv db c.memberId _ _ uid _ _ h))

theorem deleteContributionOp_inv (db : DB) (cid uid : Nat) (h : LedgerInv db) :
    LedgerInv (deleteContributionOp db cid uid) := by
  simp only [deleteContributionOp]
  split
  · exact h
  · next c hfc =>
    split
    · exact h
    · next m hfm =>
      split_ifs <;>
        first
          | exact setContributions_inv _ _
              (setCycles_inv _ _ (updateMemberBalance_inv db c.memberId _ _ uid _ _ h))
          | exact setContributions_inv _ _ (updateMemberBalance_inv db c.memberId _ _ uid _ _ h)

theorem applyOp_inv (db : DB) (op : Op) (h : LedgerInv db) : LedgerInv (applyOp db op) := by
  cases op with
  | record p =>
    simp only [applyOp]
    split
    · exact h
    · next r hrec => exact recordContribution_inv db p r hrec h
  | adjust mid a uid => exact adjustOp_inv db mid a uid h
  | updateContribution cid ao so uid => exact updateContributionOp_inv db cid ao so uid h
  | deleteContribution cid uid => exact deleteContributionOp_inv db cid uid h

/-- C1: for every member and every sequence of payment-recording,
balance-adjustment, contribution-update and contribution-deletion
operations, the stored balance (`members.contribution_balance`) equals the
sum of the signed ledger amounts (`contribution_ledger.amount`) written for
that member, at every observation point between operations — every
observation point is `applyOps db pref` for a prefix `pref` of the
operation sequence, and the theorem covers all sequences at once. -/
theorem claim1_conservation (db : DB) (ops : List Op) (h : LedgerInv db) :
    LedgerInv (applyOps db ops) := by
  induction ops generalizing db with
  | nil => exact h
  | cons op ops ih => exact ih (applyOp db op) (applyOp_inv db op h)

/-! ### Allocation completeness (C2) -/

theorem recordPipeline_alloc (db : DB) (p : RecordParams) (cid : Nat) (cyc : Cycle)
    (hP : 0 ≤ p.amount) :
    (recordPipeline db p cid cyc).step1Amount + (recordPipeline db p cid cyc).clearedAmount +
      (recordPipeline db p cid cyc).step3Amount +
      ((recordPipeline db p cid cyc).rolloverAmount + (recordPipeline db p cid cyc).creditAmount) =
      p.amount ∧
    (recordPipeline db p cid cyc).remaining = 0 := by
  simp only [recordPipeline]
  set s1 := stepOne db p cid (cycleTypesOf db cid) with hs1
  set s2 := stepTwo s1.db p cid (balanceOf db p.memberId) s1.remaining with hs2
  set s3 := (if 0 < s2.remaining ∧ ¬p.applyToBalance = true then
      allocTypes p.memberId cid p.paymentMethod s2.db s2.remaining (cycleTypesOf db cid)
    else { db := s2.db, remaining := s2.remaining, allocated := 0, contribs := [] } : StepOut) with hs3
  set s4 := stepFour s3.db p cyc s3.remaining with hs4
  obtain ⟨a1, n1⟩ := stepOne_acc db p cid (cycleTypesOf db cid)
  rw [← hs1] at a1 n1
  obtain ⟨a2, n2⟩ := stepTwo_acc s1.db p cid (balanceOf db p.memberId) s1.remaining
  rw [← hs2] at a2 n2
  have a3 : s3.remaining + s3.allocated = s2.remaining ∧
      (0 ≤ s2.remaining → 0 ≤ s3.remaining) := by
    rw [hs3]
    split_ifs
    · exact allocTypes_acc p.memberId cid p.paymentMethod s2.db s2.remaining (cycleTypesOf db cid)
    · simp
  obtain ⟨a4, r4⟩ := stepFour_acc s3.db p cyc s3.remaining
  rw [← hs4] at a4 r4
  have hrem3 : 0 ≤ s3.remaining := a3.2 (n2 (n1 hP))
  have hrem4 : s4.remaining = 0 := by
    by_cases hc : 0 < s3.remaining
    · rw [r4, if_pos hc]
    · rw [r4, if_neg hc]
      linarith
  refine ⟨?_, hrem4⟩
  have a3a := a3.1
  rw [hrem4] at a4
  show s1.allocated + s2.allocated + s3.allocated +
    (s4.rolloverAmount + s4.creditAmount) = p.amount
  linarith

/-- C2: for every payment recorded via `recordContribution`, the amount
allocated in step 1 (targeted type) plus step 2 (balance clearance) plus
the sum of step 3 allocations (remaining cycle types) plus the step 4
rollover-or-credit amount equals the payment amount exactly, and the
remaining unallocated amount is zero — no remainder is silently dropped.
The `0 ≤ p.amount` hypothesis reflects the route validator
(`validateContribution` requires `amount` to be a float with min 0). -/
theorem claim2_allocation_completeness (db : DB) (p : RecordParams) (r : AllocResult)
    (h : recordContribution db p = some r) (hP : 0 ≤ p.amount) :
    r.step1Amount + r.clearedAmount + r.step3Amount +
      (r.rolloverAmount + r.creditAmount) = p.amount ∧ r.remaining = 0 := by
  simp only [recordContribution] at h
  split at h
  · exact absurd h (by simp)
  · split at h
    · exact absurd h (by simp)
    · next currentCycleId hcc =>
      split at h
      · exact absurd h (by simp)
      · next cyc hcyc =>
        obtain rfl := (Option.some.inj h).symm
        exact recordPipeline_alloc db p currentCycleId cyc hP

/-- Concrete database for the C2 witness: one member, one active cycle
expecting 500 + 100 across two types. -/
def dbW2 : DB :=
  { members := [{ id := 7, chamaId := 1, contribution_balance := 0 }]
    cycles := [{ id := 10, chamaId := 1, cycleNumber := 1, status := CycleStatus.active,
                 collectedAmount := 0 }]
    cycleTypes := [{ cycleId := 10, typeId := 3, amount := 500 },
                   { cycleId := 10, typeId := 4, amount := 100 }]
    contributions := []
    ledger := []
    transactions := []
    nextContributionId := 1 }

/-- C2 witness parameters: a 700 payment with no explicit type. -/
def pW2 : RecordParams :=
  { chamaId := 1, memberId := 7, cycleId := none, typeId := none
    amount := 700, paymentMethod := "cash", applyToBalance := false, userId := 9 }

theorem claim2_witness :
    (recordContribution dbW2 pW2).map (fun r =>
      r.step1Amount + r.clearedAmount + r.step3Amount +
        (r.rolloverAmount + r.creditAmount)) = some 700 := by
  cases hrec : recordContribution dbW2 pW2 with
  | none => exact absurd hrec (by with_unfolding_all decide)
  | some r =>
    have hsum := (claim2_allocation_completeness dbW2 pW2 r hrec (by with_unfolding_all decide)).1
    show some (r.step1Amount + r.clearedAmount + r.step3Amount +
      (r.rolloverAmount + r.creditAmount)) = some 700
    rw [hsum]
    rfl

/-! ### Atomicity of the balance-delta primitive (C3) -/

/-- C3 amended: in `updateMemberBalance` the balance read, balance write
and ledger append run in one transaction: on full success the returned
balance is the prior balance plus the delta and the appended ledger entry
records `balanceBefore`/`balanceAfter`; a failure of a statement before
the ledger INSERT rolls the whole transaction back with no visible effect;
but a failure of the ledger INSERT alone is caught and swallowed
(lines 50-52), so the balance update still commits with no matching ledger
entry. -/
theorem claim3_amended (db : DB) (memberId : Nat) (amount : ℚ) (d : String)
    (u : Nat) (ci co : Option Nat) (fail : UmbFail) :
    (fail = UmbFail.hardFail →
      updateMemberBalanceF db memberId amount d u ci co fail = (db, none)) ∧
    (fail = UmbFail.ok →
      updateMemberBalanceF db memberId amount d u ci co fail =
        ({ setBalance db memberId (balanceOf db memberId + amount) with
           ledger := db.ledger ++
             [{ memberId := memberId, cycleId := ci, contributionId := co,
                transactionType := "contribution", amount := amount,
                balanceBefore := balanceOf db memberId,
                balanceAfter := balanceOf db memberId + amount,
                description := d, createdBy := u }] },
         some (balanceOf db memberId + amount))) ∧
    (fail = UmbFail.ledgerFail →
      updateMemberBalanceF db memberId amount d u ci co fail =
        (setBalance db memberId (balanceOf db memberId + amount),
         some (balanceOf db memberId + amount))) := by
  refine ⟨fun hf => ?_, fun hf => ?_, fun hf => ?_⟩ <;> subst hf <;> rfl

/-- Database with a single zero-balance member, used by the C3 theorems. -/
def dbC3 : DB :=
  { members := [{ id := 1, chamaId := 1, contribution_balance := 0 }]
    cycles := [], cycleTypes := [], contributions := [], ledger := []
    transactions := [], nextContributionId := 1 }

theorem claim3_witness :
    updateMemberBalanceF dbC3 1 100 "credit" 9 none none UmbFail.ok =
      ({ setBalance dbC3 1 (balanceOf dbC3 1 + 100) with
         ledger := dbC3.ledger ++
           [{ memberId := 1, cycleId := none, contributionId := none,
              transactionType := "contribution", amount := 100,
              balanceBefore := balanceOf dbC3 1,
              balanceAfter := balanceOf dbC3 1 + 100,
              description := "credit", createdBy := 9 }] },
       some (balanceOf dbC3 1 + 100)) :=
  (claim3_amended dbC3 1 100 "credit" 9 none none UmbFail.ok).2.1 rfl

/-- C3 counterexample: when the ledger INSERT fails, the balance change
commits and is visible while the ledger stays empty — a partial effect the
claim says can never be visible. -/
theorem claim3_counterexample :
    (updateMemberBalanceF dbC3 1 100 "credit" 9 none none UmbFail.ledgerFail).1.members ≠
      dbC3.members ∧
    (updateMemberBalanceF dbC3 1 100 "credit" 9 none none UmbFail.ledgerFail).1.ledger = [] := by
  with_unfolding_all decide

/-! ### Status derivation (C8) -/

/-- C8: the derived contribution status — on row creation and on row
accumulation alike — is `paid` when the accumulated amount is within 0.01
of the expected amount; otherwise `partial` when the amount is positive
(in particular whenever 0 < amount < expected); otherwise (in particular
when the amount is 0) `pending`.  The clauses apply in this order, exactly
as the source's if/else chain does. -/
theorem claim8_status_derivation (a e : ℚ) :
    deriveStatusNew a e = deriveStatusUpd a e ∧
    (|a - e| < 1/100 → deriveStatusUpd a e = CStatus.paid) ∧
    (¬|a - e| < 1/100 → 0 < a → a < e → deriveStatusUpd a e = CStatus.partpaid) ∧
    (¬|a - e| < 1/100 → a = 0 → deriveStatusUpd a e = CStatus.pending) := by
  unfold deriveStatusNew deriveStatusUpd
  refine ⟨?_, ?_, ?_, ?_⟩
  · split_ifs with h1 h2 h3 <;> first | rfl | linarith
  · intro h; rw [if_pos h]
  · intro h hpos _; rw [if_neg h, if_pos hpos]
  · intro h h0; rw [if_neg h, if_neg (by rw [h0]; exact lt_irrefl 0)]

theorem claim8_witness :
    deriveStatusNew (1/2) 1 = deriveStatusUpd (1/2) 1 ∧
    deriveStatusUpd (1/2) 1 = CStatus.partpaid ∧
    deriveStatusUpd 1000 1000 = CStatus.paid ∧
    deriveStatusUpd 0 1000 = CStatus.pending :=
  ⟨(claim8_status_derivation (1/2) 1).1,
   (claim8_status_derivation (1/2) 1).2.2.1
     (by rw [abs_sub_lt_iff]; norm_num) (by norm_num) (by norm_num),
   (claim8_status_derivation 1000 1000).2.1 (by norm_num),
   (claim8_status_derivation 0 1000).2.2.2 (by rw [abs_sub_lt_iff]; norm_num) rfl⟩

/-! ### Single active cycle (C4) -/

/-- After mapping an activation function over the cycle list, the active
cycles of the chama are exactly the target cycle: `f` turns the cycle with
the target id into an active cycle of its own chama and leaves no other
cycle of chama `ch` active. -/
theorem filter_map_single_active (cid ch : Nat) (f : Cycle → Cycle)
    (h1 : ∀ c, c.id = cid →
      (f c).id = cid ∧ (f c).chamaId = c.chamaId ∧ (f c).status = CycleStatus.active)
    (h2 : ∀ c, ¬c.id = cid → ¬((f c).chamaId = ch ∧ (f c).status = CycleStatus.active)) :
    ∀ (l : List Cycle) (cyc : Cycle), (l.map Cycle.id).Nodup →
      l.find? (fun c => c.id == cid) = some cyc → cyc.chamaId = ch →
      ((l.map f).filter
        (fun c => decide (c.chamaId = ch ∧ c.status = CycleStatus.active))).map Cycle.id =
        [cid] := by
  intro l
  induction l with
  | nil =>
    intro cyc _ hf
    simp [List.find?] at hf
  | cons c t ih =>
    intro cyc hn hf hch
    rw [List.map_cons, List.nodup_cons] at hn
    by_cases hc : c.id = cid
    · have hb : (c.id == cid) = true := beq_iff_eq.mpr hc
      have hfc2 : (c :: t).find? (fun x => x.id == cid) = some c :=
        List.find?_cons_of_pos t hb
      rw [hfc2] at hf
      obtain rfl : c = cyc := Option.some.inj hf
      obtain ⟨hf1, hf2, hf3⟩ := h1 c hc
      rw [List.map_cons, List.filter_cons, if_pos (by simp [hf2, hf3, hch])]
      have htail : (t.map f).filter
          (fun x => decide (x.chamaId = ch ∧ x.status = CycleStatus.active)) = [] := by
        rw [List.filter_eq_nil]
        intro a ha
        obtain ⟨b, hbmem, rfl⟩ := List.mem_map.mp ha
        have hbne : ¬b.id = cid := fun he => hn.1 (hc ▸ he ▸ List.mem_map_of_mem Cycle.id hbmem)
        simpa using h2 b hbne
      rw [htail, List.map_cons, List.map_nil, hf1]
    · have hb : (c.id == cid) = false := beq_eq_false_iff_ne.mpr hc
      have hfc2 : (c :: t).find? (fun x => x.id == cid) = t.find? (fun x => x.id == cid) :=
        List.find?_cons_of_neg t (by simp [hb])
      rw [hfc2] at hf
      rw [List.map_cons, List.filter_cons, if_neg (by simpa using h2 c hc)]
      exact ih cyc hn.2 hf hch

/-- C4 amended: activating a cycle through the status-update endpoint
(`updateCycleStatus`) or creating a new active cycle (the create path of
`createOrUpdateCycle`) leaves exactly one active cycle for the chama — the
target — demoting every previously active cycle to completed.  (The update
path of `createOrUpdateCycle`, by contrast, sets the status without
demoting; see the counterexample.) -/
theorem claim4_amended (db : DB) (cycleId : Nat) (cyc : Cycle)
    (hn : (db.cycles.map Cycle.id).Nodup)
    (hfc : findCycle db cycleId = some cyc) :
    ((activeCyclesOf (updateCycleStatus db cycleId CycleStatus.active) cyc.chamaId).map
      Cycle.id = [cycleId]) ∧
    ∀ ch newCycleId : Nat,
      (activeCyclesOf (createOrUpdateCycle db ch CycleStatus.active none newCycleId) ch).map
        Cycle.id = [newCycleId] := by
  have hred : updateCycleStatus db cycleId CycleStatus.active =
      { demoteActiveCycles db cyc.chamaId with cycles := ((demoteActiveCycles db cyc.chamaId).cycles.map (fun c => if c.id = cycleId then { c with status := CycleStatus.active } else c)) } := by
    unfold updateCycleStatus
    rw [hfc]
    rfl
  constructor
  · rw [hred]
    show (((db.cycles.map (fun (c : Cycle) =>
        if c.chamaId = cyc.chamaId ∧ c.status = CycleStatus.active
        then { c with status := CycleStatus.completed } else c)).map
        (fun (c : Cycle) => if c.id = cycleId then { c with status := CycleStatus.active } else c)).filter
        (fun (c : Cycle) => decide (c.chamaId = cyc.chamaId ∧ c.status = CycleStatus.active))).map
        Cycle.id = [cycleId]
    rw [List.map_map]
    refine filter_map_single_active cycleId cyc.chamaId _ ?_ ?_ db.cycles cyc hn hfc rfl
    · intro c hc
      simp only [Function.comp]
      split_ifs with hd hs hs <;> simp_all
    · intro c hc
      simp only [Function.comp]
      split_ifs with hd hs hs <;> simp_all
  · intro ch newCycleId
    have hred2 : createOrUpdateCycle db ch CycleStatus.active none newCycleId =
        { demoteActiveCycles db ch with cycles := (demoteActiveCycles db ch).cycles ++
          [{ id := newCycleId
             chamaId := ch
             cycleNumber := ((db.cycles.filter (fun c => c.chamaId == ch)).map
               Cycle.cycleNumber).foldl max 0 + 1
             status := CycleStatus.active
             collectedAmount := 0 }] } := by
      unfold createOrUpdateCycle
      rfl
    rw [hred2]
    show (((db.cycles.map (fun (c : Cycle) =>
        if c.chamaId = ch ∧ c.status = CycleStatus.active
        then { c with status := CycleStatus.completed } else c)) ++
        [({ id := newCycleId
            chamaId := ch
            cycleNumber := ((db.cycles.filter (fun c => c.chamaId == ch)).map
              Cycle.cycleNumber).foldl max 0 + 1
            status := CycleStatus.active
            collectedAmount := 0 } : Cycle)]).filter
        (fun (c : Cycle) => decide (c.chamaId = ch ∧ c.status = CycleStatus.active))).map
        Cycle.id = [newCycleId]
    rw [List.filter_append]
    have hleft : (db.cycles.map (fun c =>
        if c.chamaId = ch ∧ c.status = CycleStatus.active
        then { c with status := CycleStatus.completed } else c)).filter
        (fun c => decide (c.chamaId = ch ∧ c.status = CycleStatus.active)) = [] := by
      rw [List.filter_eq_nil]
      intro a ha
      obtain ⟨b, hbmem, rfl⟩ := List.mem_map.mp ha
      split_ifs with hd <;> simp_all
    rw [hleft]
    simp

/-- Two-cycle chama (cycle 1 active, cycle 2 upcoming) used by the C4
theorems. -/
def dbC4 : DB :=
  { members := []
    cycles := [{ id := 1, chamaId := 1, cycleNumber := 1, status := CycleStatus.active,
                 collectedAmount := 0 },
               { id := 2, chamaId := 1, cycleNumber := 2, status := CycleStatus.upcoming,
                 collectedAmount := 0 }]
    cycleTypes := [], contributions := [], ledger := [], transactions := []
    nextContributionId := 1 }

/-- C4 counterexample: activating cycle 2 through the update path of
`createOrUpdateCycle` does not demote cycle 1, so the chama ends with two
active cycles — the claim's "exactly one result" fails. -/
theorem claim4_counterexample :
    (activeCyclesOf (createOrUpdateCycle dbC4 1 CycleStatus.active (some 2) 99) 1).map
      Cycle.id = [1, 2] ∧
    (activeCyclesOf (createOrUpdateCycle dbC4 1 CycleStatus.active (some 2) 99) 1).length = 2 := by
  with_unfolding_all decide

theorem claim4_witness :
    ((activeCyclesOf (updateCycleStatus dbC4 2 CycleStatus.active) 1).map Cycle.id = [2]) ∧
    (activeCyclesOf (createOrUpdateCycle dbC4 1 CycleStatus.active none 99) 1).map
      Cycle.id = [99] :=
  ⟨(claim4_amended dbC4 2
      { id := 2, chamaId := 1, cycleNumber := 2, status := CycleStatus.upcoming,
        collectedAmount := 0 }
      (by with_unfolding_all decide) (by with_unfolding_all decide)).1,
   (claim4_amended dbC4 2
      { id := 2, chamaId := 1, cycleNumber := 2, status := CycleStatus.upcoming,
        collectedAmount := 0 }
      (by with_unfolding_all decide) (by with_unfolding_all decide)).2 1 99⟩

/-- Fresh single-member database used by the C1 witness. -/
def dbW1 : DB :=
  { members := [{ id := 1, chamaId := 1, contribution_balance := 0 }]
    cycles := [], cycleTypes := [], contributions := [], ledger := []
    transactions := [], nextContributionId := 1 }

theorem claim1_witness :
    LedgerInv (applyOps dbW1 [Op.adjust 1 100 9, Op.adjust 1 (-250) 9]) :=
  claim1_conservation dbW1 [Op.adjust 1 100 9, Op.adjust 1 (-250) 9]
    (by unfold LedgerInv ledgerSum; with_unfolding_all decide)

/-! ### The applyToBalance scenario (C5) -/

/-- The database of the spec's scenario: member 7 with balance −500 in
chama 1, whose active cycle 10 expects 1000 for the single type 3
("monthly"). -/
def dbC5 : DB :=
  { members := [{ id := 7, chamaId := 1, contribution_balance := -500 }]
    cycles := [{ id := 10, chamaId := 1, cycleNumber := 1, status := CycleStatus.active,
                 collectedAmount := 0 }]
    cycleTypes := [{ cycleId := 10, typeId := 3, amount := 1000 }]
    contributions := [], ledger := [], transactions := [], nextContributionId := 1 }

/-- The scenario's payment: 1500 with `applyToBalance` and no explicit
type. -/
def pC5 : RecordParams :=
  { chamaId := 1, memberId := 7, cycleId := none, typeId := none
    amount := 1500, paymentMethod := "cash", applyToBalance := true, userId := 9 }

/-- C5 counterexample: the claim says the scenario yields 500 balance
clearance, 1000 allocated to "monthly" (one paid Contribution row) and 0
overflow with final balance 0 — the code produces no "monthly" row at all
and a 1000 overflow. -/
theorem claim5_counterexample :
    ¬((recordContribution dbC5 pC5).map (fun r =>
        (contribsFor r.db 7 10 3).map Contribution.amount) = some [1000]) ∧
    ¬((recordContribution dbC5 pC5).map (fun r =>
        r.rolloverAmount + r.creditAmount) = some 0) := by
  refine ⟨?_, ?_⟩ <;> with_unfolding_all decide

/-- C5 amended: in the scenario, 500 clears the balance to 0; because
`applyToBalance` is set, step 3 is skipped entirely (line 1183 requires
`!applyToBalance`), so nothing is allocated to "monthly"; with no future
cycle the remaining 1000 is applied as a positive balance credit, leaving
the member's balance at +1000 and no Contribution row for the type. -/
theorem claim5_amended :
    (recordContribution dbC5 pC5).map AllocResult.clearedAmount = some 500 ∧
    (recordContribution dbC5 pC5).map AllocResult.step3Amount = some 0 ∧
    (recordContribution dbC5 pC5).map AllocResult.rolloverAmount = some 0 ∧
    (recordContribution dbC5 pC5).map AllocResult.creditAmount = some 1000 ∧
    (recordContribution dbC5 pC5).map AllocResult.remaining = some 0 ∧
    (recordContribution dbC5 pC5).map (fun r => balanceOf r.db 7) = some 1000 ∧
    (recordContribution dbC5 pC5).map (fun r => contribsFor r.db 7 10 3) = some [] := by
  refine ⟨?_, ?_, ?_, ?_, ?_, ?_, ?_⟩ <;> with_unfolding_all decide

/-! ### Overflow handling (C6) -/

/-- C6 amended: a positive remainder after all cycle obligations resolves
through exactly one of two terminal paths.  If a future upcoming/active
cycle exists (the lowest-numbered one, per `nextCycleAfter`), the
remainder becomes a rollover Contribution (type NULL, status paid) in that
cycle, and the matching positive ledger entry is tagged with the CURRENT
cycle's id and the rollover contribution's id — not with the next cycle's
id.  Otherwise the remainder becomes a plain positive balance credit whose
ledger entry is likewise tagged with the current cycle's id — not with no
cycle reference.  Both paths leave zero remaining, so nothing is allocated
afterwards. -/
theorem claim6_amended (db : DB) (p : RecordParams) (cyc : Cycle) (rem : ℚ)
    (hrem : 0 < rem) :
    (∀ nc, nextCycleAfter db p.chamaId cyc.cycleNumber = some nc →
      stepFour db p cyc rem =
        { db := { (setBalance
            { db with
              contributions := (db.contributions ++
                [{ id := db.nextContributionId
                   memberId := p.memberId
                   cycleId := nc.id
                   typeId := none
                   amount := rem
                   expectedAmount := rem
                   status := CStatus.paid
                   paymentMethod := "rollover" }])
              nextContributionId := db.nextContributionId + 1 }
            p.memberId (balanceOf db p.memberId + rem)) with
            ledger := (db.ledger ++
              [{ memberId := p.memberId
                 cycleId := some cyc.id
                 contributionId := some db.nextContributionId
                 transactionType := "contribution"
                 amount := rem
                 balanceBefore := balanceOf db p.memberId
                 balanceAfter := balanceOf db p.memberId + rem
                 description := "Rollover to next cycle"
                 createdBy := p.userId }]) }
          remaining := 0
          rolloverAmount := rem
          creditAmount := 0
          nextCycleId := some nc.id }) ∧
    (nextCycleAfter db p.chamaId cyc.cycleNumber = none →
      stepFour db p cyc rem =
        { db := { (setBalance db p.memberId (balanceOf db p.memberId + rem)) with
            ledger := (db.ledger ++
              [{ memberId := p.memberId
                 cycleId := some cyc.id
                 contributionId := none
                 transactionType := "contribution"
                 amount := rem
                 balanceBefore := balanceOf db p.memberId
                 balanceAfter := balanceOf db p.memberId + rem
                 description := "Overpayment"
                 createdBy := p.userId }]) }
          remaining := 0
          rolloverAmount := 0
          creditAmount := rem
          nextCycleId := none }) := by
  constructor
  · intro nc hnc
    simp only [stepFour]
    rw [if_pos hrem, hnc]
    rfl
  · intro hnc
    simp only [stepFour]
    rw [if_pos hrem, hnc]
    rfl

/-- Chama with an active cycle 10 (no types) and an upcoming cycle 11,
used for the C6 rollover run. -/
def dbC6r : DB :=
  { members := [{ id := 7, chamaId := 1, contribution_balance := 0 }]
    cycles := [{ id := 10, chamaId := 1, cycleNumber := 1, status := CycleStatus.active,
                 collectedAmount := 0 },
               { id := 11, chamaId := 1, cycleNumber := 2, status := CycleStatus.upcoming,
                 collectedAmount := 0 }]
    cycleTypes := [], contributions := [], ledger := [], transactions := []
    nextContributionId := 1 }

/-- The same chama without the upcoming cycle, for the C6 credit run. -/
def dbC6c : DB :=
  { dbC6r with cycles := [{ id := 10, chamaId := 1, cycleNumber := 1, status := CycleStatus.active, collectedAmount := 0 }] }

/-- A 200 payment with nothing owed in the current cycle. -/
def pC6 : RecordParams :=
  { chamaId := 1, memberId := 7, cycleId := none, typeId := none
    amount := 200, paymentMethod := "cash", applyToBalance := false, userId := 9 }

/-- C6 counterexample: in the rollover run the ledger entry is tagged with
the current cycle 10, not the next cycle 11 as the claim states; in the
no-future-cycle run the credit's ledger entry carries the current cycle
reference 10, not "no cycle reference". -/
theorem claim6_counterexample :
    ¬((recordContribution dbC6r pC6).map (fun r =>
        r.db.ledger.map (fun e => e.cycleId)) = some [some 11]) ∧
    ¬((recordContribution dbC6c pC6).map (fun r =>
        r.db.ledger.map (fun e => e.cycleId)) = some [none]) ∧
    (recordContribution dbC6r pC6).map AllocResult.nextCycleId = some (some 11) ∧
    (recordContribution dbC6r pC6).map AllocResult.rolloverAmount = some 200 ∧
    (recordContribution dbC6r pC6).map (fun r =>
      r.db.ledger.map (fun e => (e.cycleId, e.contributionId))) =
      some [(some 10, some 1)] ∧
    (recordContribution dbC6r pC6).map (fun r =>
      r.db.contributions.map (fun c => (c.id, c.cycleId, c.typeId))) =
      some [(1, 11, none)] ∧
    (recordContribution dbC6r pC6).map (fun r =>
      r.db.contributions.map (fun c => (c.amount, decide (c.status = CStatus.paid),
        c.paymentMethod))) = some [(200, true, "rollover")] ∧
    (recordContribution dbC6c pC6).map AllocResult.creditAmount = some 200 ∧
    (recordContribution dbC6c pC6).map (fun r =>
      r.db.ledger.map (fun e => (e.cycleId, e.contributionId))) =
      some [(some 10, none)] := by
  refine ⟨?_, ?_, ?_, ?_, ?_, ?_, ?_, ?_, ?_⟩ <;> with_unfolding_all decide

theorem claim6_witness :
    stepFour dbC6c pC6
      { id := 10, chamaId := 1, cycleNumber := 1, status := CycleStatus.active,
        collectedAmount := 0 } 200 =
      { db := { (setBalance dbC6c 7 (balanceOf dbC6c 7 + 200)) with
          ledger := (dbC6c.ledger ++
            [{ memberId := 7
               cycleId := some 10
               contributionId := none
               transactionType := "contribution"
               amount := 200
               balanceBefore := balanceOf dbC6c 7
               balanceAfter := balanceOf dbC6c 7 + 200
               description := "Overpayment"
               createdBy := 9 }]) }
        remaining := 0
        rolloverAmount := 0
        creditAmount := 200
        nextCycleId := none } :=
  (claim6_amended dbC6c pC6
      { id := 10, chamaId := 1, cycleNumber := 1, status := CycleStatus.active,
        collectedAmount := 0 } 200 (by norm_num)).2 (by with_unfolding_all decide)

/-! ### Frame effect of fully-absorbed payments (C10) -/

theorem stepTwo_skip (db : DB) (p : RecordParams) (cid : Nat) (bal rem : ℚ)
    (hab : p.applyToBalance = false) :
    stepTwo db p cid bal rem =
      { db := db, remaining := rem, allocated := 0, contribs := [] } := by
  simp only [stepTwo]
  rw [if_neg]
  rintro ⟨h1, -⟩
  rw [hab] at h1
  cases h1

theorem stepFour_skip (db : DB) (p : RecordParams) (cyc : Cycle) (rem : ℚ)
    (h : ¬0 < rem) :
    stepFour db p cyc rem =
      { db := db, remaining := rem, rolloverAmount := 0, creditAmount := 0,
        nextCycleId := none } := by
  simp only [stepFour]
  rw [if_neg h]

theorem recordPipeline_frame (db : DB) (p : RecordParams) (cid : Nat) (cyc : Cycle)
    (hab : p.applyToBalance = false) (hP : 0 < p.amount)
    (hro : (recordPipeline db p cid cyc).rolloverAmount = 0)
    (hcr : (recordPipeline db p cid cyc).creditAmount = 0) :
    (recordPipeline db p cid cyc).db.members = db.members ∧
    (recordPipeline db p cid cyc).db.ledger = db.ledger ∧
    (recordPipeline db p cid cyc).db.cycles = (addCollected db cid p.amount).cycles ∧
    (recordPipeline db p cid cyc).db.transactions = db.transactions ++
      [{ chamaId := p.chamaId, transactionType := "contribution",
         amount := p.amount, createdBy := p.userId }] := by
  simp only [recordPipeline] at hro hcr ⊢
  set s1 := stepOne db p cid (cycleTypesOf db cid) with hs1
  have hS2 : stepTwo s1.db p cid (balanceOf db p.memberId) s1.remaining =
      { db := s1.db, remaining := s1.remaining, allocated := 0, contribs := [] } :=
    stepTwo_skip s1.db p cid (balanceOf db p.memberId) s1.remaining hab
  simp only [hS2] at hro hcr ⊢
  obtain ⟨a1, n1⟩ := stepOne_acc db p cid (cycleTypesOf db cid)
  rw [← hs1] at a1 n1
  by_cases hc : 0 < s1.remaining ∧ ¬p.applyToBalance = true
  · simp only [if_pos hc] at hro hcr ⊢
    set s3 := allocTypes p.memberId cid p.paymentMethod s1.db s1.remaining
      (cycleTypesOf db cid) with hs3
    obtain ⟨a3, n3⟩ := allocTypes_acc p.memberId cid p.paymentMethod s1.db s1.remaining
      (cycleTypesOf db cid)
    rw [← hs3] at a3 n3
    obtain ⟨a4, r4⟩ := stepFour_acc s3.db p cyc s3.remaining
    have hrem3 : 0 ≤ s3.remaining := n3 (n1 hP.le)
    have hnlt : ¬0 < s3.remaining := by
      intro hlt
      rw [if_pos hlt] at r4
      rw [r4, sub_zero, hro, hcr] at a4
      linarith
    have hrem0 : s3.remaining = 0 := le_antisymm (not_lt.mp hnlt) hrem3
    have hS4 := stepFour_skip s3.db p cyc s3.remaining hnlt
    simp only [hS4]
    simp only [hrem0, sub_zero]
    rw [if_pos hP]
    refine ⟨?_, ?_, ?_, ?_⟩ <;>
      simp [hs3, hs1, addCollected, allocTypes_members, allocTypes_ledger,
        allocTypes_cycles, allocTypes_transactions]
  · simp only [if_neg hc] at hro hcr ⊢
    have hr1 : 0 ≤ s1.remaining := n1 hP.le
    have hnlt : ¬0 < s1.remaining := fun hlt => hc ⟨hlt, by rw [hab]; simp⟩
    have hrem0 : s1.remaining = 0 := le_antisymm (not_lt.mp hnlt) hr1
    have hS4 := stepFour_skip s1.db p cyc s1.remaining hnlt
    simp only [hS4]
    simp only [hrem0, sub_zero]
    rw [if_pos hP]
    refine ⟨?_, ?_, ?_, ?_⟩ <;> simp [hs1, addCollected]

/-- C10 amended: a payment fully absorbed by the cycle-type allocation
steps 1 and 3 (no balance clearance and no overflow — `applyToBalance`
unset and a zero rollover and credit outcome) leaves the member rows and
the ledger untouched; the only changes are Contribution rows, the current
cycle's `collected_amount` increased by the payment, and one appended
`transactions`-log row (the source inserts it unconditionally at
lines 1283-1293). -/
theorem claim10_amended (db : DB) (p : RecordParams) (r : AllocResult)
    (h : recordContribution db p = some r) (hab : p.applyToBalance = false)
    (hP : 0 ≤ p.amount) (hro : r.rolloverAmount = 0) (hcr : r.creditAmount = 0) :
    r.db.members = db.members ∧ r.db.ledger = db.ledger ∧
    r.db.cycles = (addCollected db r.currentCycleId p.amount).cycles ∧
    r.db.transactions = db.transactions ++
      [{ chamaId := p.chamaId, transactionType := "contribution",
         amount := p.amount, createdBy := p.userId }] := by
  simp only [recordContribution] at h
  split at h
  · exact absurd h (by simp)
  · next hne =>
    split at h
    · exact absurd h (by simp)
    · next currentCycleId hcc =>
      split at h
      · exact absurd h (by simp)
      · next cyc hcyc =>
        obtain rfl := (Option.some.inj h).symm
        have hcid : (recordPipeline db p currentCycleId cyc).currentCycleId =
            currentCycleId := rfl
        rw [hcid]
        exact recordPipeline_frame db p currentCycleId cyc hab
          (lt_of_le_of_ne hP (fun he => hne he.symm)) hro hcr

/-- Database for the C10 run: member 7 owes 1000 for type 3 in active
cycle 10 and pays exactly 1000 with no explicit type. -/
def dbC10 : DB :=
  { members := [{ id := 7, chamaId := 1, contribution_balance := 0 }]
    cycles := [{ id := 10, chamaId := 1, cycleNumber := 1, status := CycleStatus.active,
                 collectedAmount := 0 }]
    cycleTypes := [{ cycleId := 10, typeId := 3, amount := 1000 }]
    contributions := [], ledger := [], transactions := [], nextContributionId := 1 }

def pC10 : RecordParams :=
  { chamaId := 1, memberId := 7, cycleId := none, typeId := none
    amount := 1000, paymentMethod := "cash", applyToBalance := false, userId := 9 }

/-- C10 counterexample: the payment is fully absorbed by step 3 (no
clearance, no rollover, no credit) and indeed leaves the member balance
and ledger untouched — but a `transactions` row is inserted, so it is not
true that only Contribution rows and the cycle's collected amount
change. -/
theorem claim10_counterexample :
    (recordContribution dbC10 pC10).map AllocResult.clearedAmount = some 0 ∧
    (recordContribution dbC10 pC10).map AllocResult.rolloverAmount = some 0 ∧
    (recordContribution dbC10 pC10).map AllocResult.creditAmount = some 0 ∧
    (recordContribution dbC10 pC10).map AllocResult.step3Amount = some 1000 ∧
    (recordContribution dbC10 pC10).map (fun r =>
      decide (r.db.members = dbC10.members)) = some true ∧
    (recordContribution dbC10 pC10).map (fun r => r.db.ledger.length) = some 0 ∧
    dbC10.transactions.length = 0 ∧
    ¬((recordContribution dbC10 pC10).map (fun r =>
        decide (r.db.transactions = dbC10.transactions)) = some true) ∧
    (recordContribution dbC10 pC10).map (fun r => r.db.transactions.length) = some 1 := by
  refine ⟨?_, ?_, ?_, ?_, ?_, ?_, ?_, ?_, ?_⟩ <;> with_unfolding_all decide

theorem claim10_witness :
    (recordContribution dbC10 pC10).map (fun r =>
      decide (r.db.members = dbC10.members ∧ r.db.ledger = dbC10.ledger)) = some true := by
  cases hrec : recordContribution dbC10 pC10 with
  | none => exact absurd hrec (by with_unfolding_all decide)
  | some r =>
    have hro : r.rolloverAmount = 0 := by
      have h0 : (recordContribution dbC10 pC10).map AllocResult.rolloverAmount = some 0 := by
        with_unfolding_all decide
      rw [hrec] at h0
      exact Option.some.inj h0
    have hcr : r.creditAmount = 0 := by
      have h0 : (recordContribution dbC10 pC10).map AllocResult.creditAmount = some 0 := by
        with_unfolding_all decide
      rw [hrec] at h0
      exact Option.some.inj h0
    obtain ⟨hm, hl, -, -⟩ := claim10_amended dbC10 pC10 r hrec rfl
      (by with_unfolding_all decide) hro hcr
    show some (decide (r.db.members = dbC10.members ∧ r.db.ledger = dbC10.ledger)) = some true
    rw [hm, hl]
    simp

/-! ### Idempotent type accumulation (C7) -/

theorem stepOne_insert (db : DB) (p : RecordParams) (cid tid : Nat)
    (cts : List CycleType) (ct : CycleType)
    (hti : p.typeId = some tid) (hab : p.applyToBalance = false)
    (hct : cts.find? (fun t => t.typeId == tid) = some ct)
    (hex : contribsFor db p.memberId cid tid = [])
    (hP : 0 < p.amount) (hle : p.amount ≤ ct.amount) :
    stepOne db p cid cts =
      { db := { db with
          contributions := (db.contributions ++
            [{ id := db.nextContributionId, memberId := p.memberId, cycleId := cid,
               typeId := some tid, amount := p.amount, expectedAmount := ct.amount,
               status := deriveStatusNew p.amount ct.amount, paymentMethod := p.paymentMethod }])
          nextContributionId := db.nextContributionId + 1 }
        remaining := 0
        allocated := p.amount
        contribs := ([{ id := db.nextContributionId, memberId := p.memberId, cycleId := cid,
                        typeId := some tid, amount := p.amount, expectedAmount := ct.amount,
                        status := deriveStatusNew p.amount ct.amount,
                        paymentMethod := p.paymentMethod }]) } := by
  have h0 : (0 : ℚ) < ct.amount := lt_of_lt_of_le hP hle
  simp only [stepOne, hti, hab]
  rw [hct, hex]
  have hgd : ((some ct).map CycleType.amount).getD 0 = ct.amount := rfl
  have hsum : (([] : List Contribution).map Contribution.amount).sum = 0 := rfl
  rw [hgd, hsum, sub_zero, max_eq_right h0.le, if_pos ⟨hP, h0⟩, min_eq_left hle,
    if_pos hP]
  simp only [handleTypeContribution]
  rw [sub_self]

theorem stepOne_update (db : DB) (p : RecordParams) (cid tid : Nat)
    (cts : List CycleType) (ct : CycleType) (c0 : Contribution)
    (hti : p.typeId = some tid) (hab : p.applyToBalance = false)
    (hct : cts.find? (fun t => t.typeId == tid) = some ct)
    (hex : contribsFor db p.memberId cid tid = [c0])
    (hP : 0 < p.amount) (hle : p.amount ≤ ct.amount - c0.amount) :
    stepOne db p cid cts =
      { db := { db with
          contributions := (db.contributions.map (fun k =>
            if k.id == c0.id
            then { k with amount := c0.amount + p.amount,
                          status := deriveStatusUpd (c0.amount + p.amount) ct.amount }
            else k)) }
        remaining := 0
        allocated := p.amount
        contribs := ([{ id := c0.id, memberId := p.memberId, cycleId := cid,
                        typeId := some tid, amount := p.amount, expectedAmount := ct.amount,
                        status := deriveStatusNew p.amount ct.amount,
                        paymentMethod := p.paymentMethod }]) } := by
  have hgap : (0 : ℚ) < ct.amount - c0.amount := lt_of_lt_of_le hP hle
  simp only [stepOne, hti, hab]
  rw [hct, hex]
  have hgd : ((some ct).map CycleType.amount).getD 0 = ct.amount := rfl
  have hsum : ([c0].map Contribution.amount).sum = c0.amount := by simp
  rw [hgd, hsum, max_eq_right hgap.le, if_pos ⟨hP, hgap⟩, min_eq_left hle, if_pos hP]
  simp only [handleTypeContribution]
  rw [sub_self]

theorem find?_map_cycles (f : Cycle → Cycle) (hf : ∀ c, (f c).id = c.id)
    (cid : Nat) : ∀ l : List Cycle,
    (l.map f).find? (fun c => c.id == cid) = (l.find? (fun c => c.id == cid)).map f := by
  intro l
  induction l with
  | nil => rfl
  | cons c t ih =>
    by_cases hc : (c.id == cid) = true
    · have hcf : ((f c).id == cid) = true := by rw [hf]; exact hc
      have e1 : (f c :: t.map f).find? (fun x => x.id == cid) = some (f c) :=
        List.find?_cons_of_pos (t.map f) hcf
      have e2 : (c :: t).find? (fun x => x.id == cid) = some c :=
        List.find?_cons_of_pos t hc
      rw [List.map_cons, e1, e2]
      rfl
    · have hcb : (c.id == cid) = false := by simpa using hc
      have hcf : ((f c).id == cid) = false := by rw [hf]; exact hcb
      have e1 : (f c :: t.map f).find? (fun x => x.id == cid) =
          (t.map f).find? (fun x => x.id == cid) :=
        List.find?_cons_of_neg (t.map f) (by simp [hcf])
      have e2 : (c :: t).find? (fun x => x.id == cid) = t.find? (fun x => x.id == cid) :=
        List.find?_cons_of_neg t (by simp [hcb])
      rw [List.map_cons, e1, e2, ih]

theorem recordContribution_eq (db : DB) (p : RecordParams) (cid : Nat) (cyc : Cycle)
    (hcid : p.cycleId = some cid) (hfc : findCycle db cid = some cyc)
    (hne : p.amount ≠ 0) :
    recordContribution db p = some (recordPipeline db p cid cyc) := by
  simp only [recordContribution, hcid, hfc, if_neg hne]

theorem recordPipeline_step1_only (db : DB) (p : RecordParams) (cid : Nat) (cyc : Cycle)
    (hab : p.applyToBalance = false) (hP : 0 < p.amount)
    (hs1 : (stepOne db p cid (cycleTypesOf db cid)).remaining = 0) :
    recordPipeline db p cid cyc =
      { db := { (addCollected (stepOne db p cid (cycleTypesOf db cid)).db cid p.amount) with
          transactions := ((stepOne db p cid (cycleTypesOf db cid)).db.transactions ++
            [{ chamaId := p.chamaId, transactionType := "contribution",
               amount := p.amount, createdBy := p.userId }]) }
        currentCycleId := cid
        step1Amount := (stepOne db p cid (cycleTypesOf db cid)).allocated
        clearedAmount := 0
        step3Amount := 0
        rolloverAmount := 0
        creditAmount := 0
        remaining := 0
        typeContribs := (stepOne db p cid (cycleTypesOf db cid)).contribs ++ []
        nextCycleId := none } := by
  simp only [recordPipeline]
  have hS2 := stepTwo_skip (stepOne db p cid (cycleTypesOf db cid)).db p cid
    (balanceOf db p.memberId) (stepOne db p cid (cycleTypesOf db cid)).remaining hab
  simp only [hS2]
  simp only [hs1]
  rw [if_neg (show ¬((0 : ℚ) < 0 ∧ ¬p.applyToBalance = true) by simp)]
  have hs4 := stepFour_skip (stepOne db p cid (cycleTypesOf db cid)).db p cyc 0 (lt_irrefl 0)
  simp only [hs4]
  simp only [sub_zero]
  rw [if_pos hP]
  rfl

/-- C7: for every member, cycle and contribution type, recording two
successive payments of X and then Y toward that (member, cycle, type)
triple — explicit `typeId`, `applyToBalance` unset, starting from a state
with no Contribution row for the triple and X + Y within the type's
expected amount so that both payments are recorded toward the triple in
full — leaves exactly one Contribution row for the triple, with
accumulated amount X + Y and the status the status-derivation rule assigns
to X + Y against the expected amount. -/
theorem claim7_accumulation (db : DB) (m cid tid ch uid1 uid2 : Nat)
    (pm1 pm2 : String) (X Y : ℚ) (cyc : Cycle) (ct : CycleType)
    (hcy : findCycle db cid = some cyc)
    (hct : (cycleTypesOf db cid).find? (fun t => t.typeId == tid) = some ct)
    (hex : contribsFor db m cid tid = [])
    (hX : 0 < X) (hY : 0 < Y) (hXY : X + Y ≤ ct.amount) :
    ∃ r1 r2 : AllocResult,
      recordContribution db
        { chamaId := ch, memberId := m, cycleId := some cid, typeId := some tid,
          amount := X, paymentMethod := pm1, applyToBalance := false,
          userId := uid1 } = some r1 ∧
      recordContribution r1.db
        { chamaId := ch, memberId := m, cycleId := some cid, typeId := some tid,
          amount := Y, paymentMethod := pm2, applyToBalance := false,
          userId := uid2 } = some r2 ∧
      contribsFor r2.db m cid tid =
        [{ id := db.nextContributionId, memberId := m, cycleId := cid,
           typeId := some tid, amount := X + Y, expectedAmount := ct.amount,
           status := deriveStatusUpd (X + Y) ct.amount, paymentMethod := pm1 }] := by
  have hXle : X ≤ ct.amount := by linarith
  set p1 : RecordParams :=
    { chamaId := ch, memberId := m, cycleId := some cid, typeId := some tid,
      amount := X, paymentMethod := pm1, applyToBalance := false, userId := uid1 } with hp1
  set p2 : RecordParams :=
    { chamaId := ch, memberId := m, cycleId := some cid, typeId := some tid,
      amount := Y, paymentMethod := pm2, applyToBalance := false, userId := uid2 } with hp2
  set c1 : Contribution :=
    { id := db.nextContributionId, memberId := p1.memberId, cycleId := cid,
      typeId := some tid, amount := p1.amount, expectedAmount := ct.amount,
      status := deriveStatusNew p1.amount ct.amount,
      paymentMethod := p1.paymentMethod } with hc1
  have hs1a := stepOne_insert db p1 cid tid (cycleTypesOf db cid) ct rfl rfl hct hex hX hXle
  rw [← hc1] at hs1a
  have hr1 : recordContribution db p1 = some (recordPipeline db p1 cid cyc) :=
    recordContribution_eq db p1 cid cyc rfl hcy hX.ne'
  have hpipe1 := recordPipeline_step1_only db p1 cid cyc rfl hX (by rw [hs1a])
  -- facts about the intermediate database
  have hDcts : cycleTypesOf (recordPipeline db p1 cid cyc).db cid = cycleTypesOf db cid := by
    rw [hpipe1, hs1a]
    rfl
  have hbump : ∀ c : Cycle,
      ((fun c => if c.id == cid
        then { c with collectedAmount := c.collectedAmount + p1.amount } else c) c).id = c.id := by
    intro c
    by_cases hc : (c.id == cid) = true <;> simp [hc]
  have hDfind : findCycle (recordPipeline db p1 cid cyc).db cid =
      some (if (cyc.id == cid) = true
        then { cyc with collectedAmount := cyc.collectedAmount + p1.amount } else cyc) := by
    rw [hpipe1, hs1a]
    show (db.cycles.map (fun c => if c.id == cid
      then { c with collectedAmount := c.collectedAmount + p1.amount } else c)).find?
        (fun c => c.id == cid) = _
    rw [find?_map_cycles _ hbump cid db.cycles]
    have hfind0 : db.cycles.find? (fun c => c.id == cid) = some cyc := hcy
    rw [hfind0]
    rfl
  have hDex : contribsFor (recordPipeline db p1 cid cyc).db m cid tid = [c1] := by
    rw [hpipe1, hs1a]
    show ((db.contributions ++ [c1]).filter
      (fun c => c.memberId == m && c.cycleId == cid && c.typeId == some tid)) = _
    rw [List.filter_append]
    have hex0 : db.contributions.filter
        (fun c => c.memberId == m && c.cycleId == cid && c.typeId == some tid) = [] := hex
    rw [hex0]
    simp [hc1, hp1]
  have hctD : (cycleTypesOf (recordPipeline db p1 cid cyc).db cid).find?
      (fun t => t.typeId == tid) = some ct := by
    rw [hDcts]
    exact hct
  have hle2 : p2.amount ≤ ct.amount - c1.amount := by
    show Y ≤ ct.amount - X
    linarith
  have hs1b := stepOne_update (recordPipeline db p1 cid cyc).db p2 cid tid
    (cycleTypesOf (recordPipeline db p1 cid cyc).db cid) ct c1 rfl rfl hctD hDex hY hle2
  have hr2 : recordContribution (recordPipeline db p1 cid cyc).db p2 =
      some (recordPipeline (recordPipeline db p1 cid cyc).db p2 cid
        (if (cyc.id == cid) = true
          then { cyc with collectedAmount := cyc.collectedAmount + p1.amount } else cyc)) :=
    recordContribution_eq _ p2 cid _ rfl hDfind hY.ne'
  have hpipe2 := recordPipeline_step1_only (recordPipeline db p1 cid cyc).db p2 cid
    (if (cyc.id == cid) = true
      then { cyc with collectedAmount := cyc.collectedAmount + p1.amount } else cyc)
    rfl hY (by rw [hs1b])
  refine ⟨recordPipeline db p1 cid cyc,
    recordPipeline (recordPipeline db p1 cid cyc).db p2 cid
      (if (cyc.id == cid) = true
        then { cyc with collectedAmount := cyc.collectedAmount + p1.amount } else cyc),
    hr1, hr2, ?_⟩
  -- the final contributions for the triple
  have hDc : (recordPipeline db p1 cid cyc).db.contributions =
      db.contributions ++ [c1] := by
    rw [hpipe1, hs1a]
    rfl
  have hr2db : (recordPipeline (recordPipeline db p1 cid cyc).db p2 cid
      (if (cyc.id == cid) = true
        then { cyc with collectedAmount := cyc.collectedAmount + p1.amount }
        else cyc)).db.contributions =
      (db.contributions ++ [c1]).map (fun k =>
        if k.id == c1.id
        then { k with amount := c1.amount + p2.amount,
                      status := deriveStatusUpd (c1.amount + p2.amount) ct.amount }
        else k) := by
    rw [hpipe2, hs1b]
    show ((recordPipeline db p1 cid cyc).db.contributions.map (fun k =>
      if k.id == c1.id
      then { k with amount := c1.amount + p2.amount,
                    status := deriveStatusUpd (c1.amount + p2.amount) ct.amount }
      else k)) = _
    rw [hDc]
  unfold contribsFor
  rw [hr2db, List.map_append, List.filter_append]
  have hA : ((db.contributions.map (fun k =>
      if k.id == c1.id
      then { k with amount := c1.amount + p2.amount,
                    status := deriveStatusUpd (c1.amount + p2.amount) ct.amount }
      else k)).filter
      (fun c => c.memberId == m && c.cycleId == cid && c.typeId == some tid)) = [] := by
    rw [List.filter_eq_nil]
    intro a ha
    obtain ⟨k, hk, rfl⟩ := List.mem_map.mp ha
    have hkp := List.filter_eq_nil.mp hex k hk
    by_cases hid : (k.id == c1.id) = true <;> simp [hid] at hkp ⊢ <;> exact hkp
  rw [hA]
  simp [hc1, hp1, hp2]

theorem claim7_witness :
    ∃ r1 r2 : AllocResult,
      recordContribution dbC10
        { chamaId := 1, memberId := 7, cycleId := some 10, typeId := some 3,
          amount := 300, paymentMethod := "cash", applyToBalance := false,
          userId := 9 } = some r1 ∧
      recordContribution r1.db
        { chamaId := 1, memberId := 7, cycleId := some 10, typeId := some 3,
          amount := 700, paymentMethod := "mpesa", applyToBalance := false,
          userId := 9 } = some r2 ∧
      contribsFor r2.db 7 10 3 =
        [{ id := 1, memberId := 7, cycleId := 10, typeId := some 3, amount := 300 + 700,
           expectedAmount := 1000, status := deriveStatusUpd (300 + 700) 1000,
           paymentMethod := "cash" }] :=
  claim7_accumulation dbC10 7 10 3 1 9 9 "cash" "mpesa" 300 700
    { id := 10, chamaId := 1, cycleNumber := 1, status := CycleStatus.active,
      collectedAmount := 0 }
    { cycleId := 10, typeId := 3, amount := 1000 }
    (by with_unfolding_all decide) (by with_unfolding_all decide)
    (by with_unfolding_all decide) (by with_unfolding_all decide)
    (by with_unfolding_all decide) (by with_unfolding_all decide)

end Chama
